import Mathlib

/-!
Offline markup symbolizer (sanitizer_common).

A shallow embedding of `sanitizer_symbolizer_markup.cpp` and of
`sanitizer_symbolizer_fuchsia.cpp` (printer, symbolizer entry points and slow
unwinder), followed by the properties proved about them.

Conventions of the embedding.

* `uptr`, `u32` and `u8` values are natural numbers; a subtraction of two
  `uptr` values is taken modulo `2 ^ wordBits`, the `u32` sum `max_depth + 1`
  modulo `2 ^ 32`.
* A failed `CHECK` ends the process: the function returns `none`.
* `InternalScopedString` is the ordered log of the `Append` / `AppendF` calls
  made on the buffer; `InternalScopedString.text` turns the log into the
  characters the buffer would hold.
* The function-local statics of `RenderModules` are passed in and returned
  explicitly (`RenderModulesStatics`).
* The pair `uuid()`, `uuid_size()` of a `LoadedModule` is the list of its
  `uuid_size()` build-id bytes.
* `BufferedStackTrace` is the list of its first `size` slots.
* A `const char *` that may be null is an `Option`, `none` for the null
  pointer. A name handed in is a `String`; a buffer filled by
  `internal_snprintf`, whose capacity counts bytes, is the list of its bytes,
  the UTF-8 bytes of the text written.
* The constants of `sanitizer_symbolizer_markup_constants.h` are the fields of
  `MarkupConstants`.
-/

namespace __sanitizer

/-! ## Platform constants -/

/-- Constants that the two translation units take from headers outside of
them: the width of `uptr`, `kModuleUUIDSize` (sanitizer_common.h),
`kStackTraceMax` (sanitizer_stacktrace.h), `PAGE_SIZE` (limits.h) and
`SANITIZER_POINTER_FORMAT_LENGTH` (sanitizer_internal_defs.h). -/
structure Platform where
  wordBits : Nat
  kModuleUUIDSize : Nat
  kStackTraceMax : Nat
  PAGE_SIZE : Nat
  SANITIZER_POINTER_FORMAT_LENGTH : Nat
deriving DecidableEq, Repr

/-- The values of the constants on a 64-bit target. -/
def Platform.lp64 : Platform :=
  { wordBits := 64
    kModuleUUIDSize := 32
    kStackTraceMax := 255
    PAGE_SIZE := 4096
    SANITIZER_POINTER_FORMAT_LENGTH := 12 }

/-- Difference `a - b` of two `uptr` values, modulo `2 ^ wordBits`. -/
def uptr_sub (P : Platform) (a b : Nat) : Nat :=
  (a + (2 ^ P.wordBits - b % 2 ^ P.wordBits)) % 2 ^ P.wordBits

/-! ## Loaded modules -/

/-- An `AddressRange` of a loaded module. -/
structure AddressRange where
  beg : Nat
  «end» : Nat
  executable : Bool
  writable : Bool
deriving DecidableEq, Repr

/-- The part of `LoadedModule` read by the renderer: `full_name()`,
`base_address()`, the `uuid_size()` bytes at `uuid()`, and `ranges()`. -/
structure LoadedModule where
  full_name : String
  base_address : Nat
  uuid : List Nat
  ranges : List AddressRange
deriving DecidableEq, Repr

/-- Accessor `LoadedModule::uuid_size()`. -/
def LoadedModule.uuid_size (module : LoadedModule) : Nat := module.uuid.length

/-! ## The text buffer -/

/-- One variadic argument of a formatted append. -/
inductive Arg where
  | num (n : Nat)
  | str (s : String)
deriving DecidableEq, Repr

/-- One call made on an `InternalScopedString`. -/
inductive Piece where
  | Append (s : String)
  | AppendF (format : String) (args : List Arg)
deriving DecidableEq, Repr

/-- The buffer, as the calls made on it, oldest first. -/
abbrev InternalScopedString := List Piece

/-- Modelled from the spec: `AppendUnsigned` of sanitizer_printf.cpp, which is
outside the sources at hand. The digits of `num` in `base`, lowercase, padded
on the left up to `minimal_num_length` characters. -/
def AppendUnsigned (num base minimal_num_length : Nat) (pad_with_zero : Bool) : List Char :=
  let digits := Nat.toDigits base num
  List.replicate (minimal_num_length - digits.length) (if pad_with_zero then '0' else ' ')
    ++ digits

/-- Modelled from the spec: `AppendPointer` of sanitizer_printf.cpp, which is
outside the sources at hand: `0x` and the zero-padded lowercase hexadecimal
digits. -/
def AppendPointer (P : Platform) (ptr_value : Nat) : List Char :=
  ['0', 'x'] ++ AppendUnsigned ptr_value 16 P.SANITIZER_POINTER_FORMAT_LENGTH true

/-- Modelled from the spec: the formatter behind `AppendF` and
`internal_snprintf` (sanitizer_printf.cpp, outside the sources at hand),
limited to the four directives that the two translation units use: `%d`,
`%s`, `%02x` and `%p`. Every other character is copied. -/
def VSNPrintf (P : Platform) : List Char → List Arg → List Char
  | [], _ => []
  | '%' :: 'd' :: format, Arg.num n :: args =>
      AppendUnsigned n 10 0 false ++ VSNPrintf P format args
  | '%' :: 's' :: format, Arg.str s :: args => s.data ++ VSNPrintf P format args
  | '%' :: '0' :: '2' :: 'x' :: format, Arg.num n :: args =>
      AppendUnsigned n 16 2 true ++ VSNPrintf P format args
  | '%' :: 'p' :: format, Arg.num n :: args => AppendPointer P n ++ VSNPrintf P format args
  | c :: format, args => c :: VSNPrintf P format args

/-- The characters one call adds to the buffer. -/
def Piece.text (P : Platform) : Piece → List Char
  | Piece.Append s => s.data
  | Piece.AppendF format args => VSNPrintf P format.data args

/-- The characters held by the buffer. -/
def InternalScopedString.text (P : Platform) (buffer : InternalScopedString) : List Char :=
  (buffer.map (Piece.text P)).flatten

/-! ## Format strings of `RenderModules` -/

/-- The literal of line 136. -/
def kResetMarker : String := "\x7b\x7b\x7breset\x7d\x7d\x7d\n"

/-- The format of line 144. -/
def kModuleFormat : String := "\x7b\x7b\x7bmodule:%d:%s:elf:"

/-- The format of line 147. -/
def kUuidByteFormat : String := "%02x"

/-- The literal of line 149. -/
def kElementEnd : String := "\x7d\x7d\x7d\n"

/-- The format of line 152. -/
def kMmapFormat : String := "\x7b\x7b\x7bmmap:%p:%p:load:%d:r"

/-- The format of line 162. -/
def kMmapTailFormat : String := ":%p\x7d\x7d\x7d\n"

/-! ## The registry of rendered modules -/

/-- The struct `RenderedModule`: `uuid` is the array of `kModuleUUIDSize`
bytes. -/
structure RenderedModule where
  full_name : String
  uuid : List Nat
  base_address : Nat
deriving DecidableEq, Repr

/-- Modelled from the spec: `internal_memcmp` of sanitizer_libc.cpp, which is
outside the sources at hand: three-way comparison of the first `n` bytes. -/
def internal_memcmp : List Nat → List Nat → Nat → Int
  | _, _, 0 => 0
  | s1, s2, n + 1 =>
      if s1.headD 0 ≠ s2.headD 0 then
        (if s1.headD 0 < s2.headD 0 then -1 else 1)
      else internal_memcmp s1.tail s2.tail n

/-- Modelled from the spec: `internal_strcmp` of sanitizer_libc.cpp, which is
outside the sources at hand: three-way comparison of two strings, given by
their characters before the terminator. -/
def internal_strcmp : List Char → List Char → Int
  | [], [] => 0
  | [], _ :: _ => -1
  | _ :: _, [] => 1
  | c1 :: s1, c2 :: s2 =>
      if c1 ≠ c2 then (if c1 < c2 then -1 else 1) else internal_strcmp s1 s2

/-- Modelled from the spec: `internal_memcpy` of sanitizer_libc.cpp, which is
outside the sources at hand: the first `n` bytes of `dest` become those of
`src`. -/
def internal_memcpy (dest src : List Nat) (n : Nat) : List Nat :=
  src.take n ++ dest.drop n

/-- Modelled from the spec: `internal_strdup` of sanitizer_libc.cpp, which is
outside the sources at hand: a copy of the string, whichever way the string
is held. -/
def internal_strdup {α : Type} (s : α) : α := s

/-- The function `ModulesEq` (lines 104-110). -/
def ModulesEq (module : LoadedModule) (renderedModule : RenderedModule) : Bool :=
  module.base_address == renderedModule.base_address &&
    internal_memcmp module.uuid renderedModule.uuid module.uuid_size == 0 &&
    internal_strcmp module.full_name.data renderedModule.full_name.data == 0

/-- The function `ModuleHasBeenRendered` (lines 112-123). -/
def ModuleHasBeenRendered (module : LoadedModule) : List RenderedModule → Bool
  | [] => false
  | renderedModule :: rest =>
      if ModulesEq module renderedModule then true else ModuleHasBeenRendered module rest

/-- The function-local statics of `RenderModules` (lines 128-129). -/
structure RenderModulesStatics where
  initialized : Bool
  renderedModules : List RenderedModule
deriving DecidableEq, Repr

/-- The statics at process start. -/
def RenderModulesStatics.initial : RenderModulesStatics :=
  { initialized := false, renderedModules := [] }

/-- The value-initialised element added by `push_back` (line 165): null name,
zero bytes, zero base address. -/
def RenderedModule.zero (P : Platform) : RenderedModule :=
  { full_name := "", uuid := List.replicate P.kModuleUUIDSize 0, base_address := 0 }

/-- Lines 165-173: the record added for `module`; `none` when
`CHECK_GE(kModuleUUIDSize, module.uuid_size())` fails. -/
def recordModule (P : Platform) (module : LoadedModule) : Option RenderedModule :=
  let curModule := RenderedModule.zero P
  let curModule := { curModule with full_name := internal_strdup module.full_name }
  if P.kModuleUUIDSize ≥ module.uuid_size then
    let curModule :=
      { curModule with uuid := internal_memcpy curModule.uuid module.uuid module.uuid_size }
    some { curModule with base_address := module.base_address }
  else none

/-- Lines 146-148: one `%02x` per build-id byte. -/
def renderUuid (buffer : InternalScopedString) (uuid : List Nat) : InternalScopedString :=
  uuid.foldl (fun buffer byte => buffer ++ [Piece.AppendF kUuidByteFormat [Arg.num byte]]) buffer

/-- Lines 152-162: the body of the loop over `module.ranges()`;
`size` is `renderedModules.size()`. -/
def renderRange (P : Platform) (module : LoadedModule) (size : Nat)
    (buffer : InternalScopedString) (range : AddressRange) : InternalScopedString :=
  let buffer := buffer ++ [Piece.AppendF kMmapFormat
    [Arg.num range.beg, Arg.num (uptr_sub P range.end range.beg), Arg.num size]]
  let buffer := if range.writable then buffer ++ [Piece.Append "w"] else buffer
  let buffer := if range.executable then buffer ++ [Piece.Append "x"] else buffer
  buffer ++ [Piece.AppendF kMmapTailFormat
    [Arg.num (uptr_sub P range.beg module.base_address)]]

/-- Lines 139-174: the loop over `modules`. -/
def renderLoop (P : Platform) :
    List RenderedModule → InternalScopedString → List LoadedModule →
      Option (List RenderedModule × InternalScopedString)
  | renderedModules, buffer, [] => some (renderedModules, buffer)
  | renderedModules, buffer, module :: rest =>
      if ModuleHasBeenRendered module renderedModules then
        renderLoop P renderedModules buffer rest
      else
        let buffer := buffer ++ [Piece.AppendF kModuleFormat
          [Arg.num renderedModules.length, Arg.str module.full_name]]
        let buffer := renderUuid buffer module.uuid
        let buffer := buffer ++ [Piece.Append kElementEnd]
        let buffer := module.ranges.foldl (renderRange P module renderedModules.length) buffer
        match recordModule P module with
        | none => none
        | some curModule => renderLoop P (renderedModules ++ [curModule]) buffer rest

/-- Lines 130-133: the vector once the first-call initialisation is done;
`Initialize` (line 131) leaves it empty. -/
def initializedVector (statics : RenderModulesStatics) : List RenderedModule :=
  if !statics.initialized then [] else statics.renderedModules

/-- The method `MarkupStackTracePrinter::RenderModules` (lines 125-175). -/
def RenderModules (P : Platform) (statics : RenderModulesStatics)
    (buffer : InternalScopedString) (modules : List LoadedModule) :
    Option (RenderModulesStatics × InternalScopedString) :=
  let renderedModules := initializedVector statics
  let buffer :=
    if renderedModules.length == 0 then buffer ++ [Piece.Append kResetMarker] else buffer
  match renderLoop P renderedModules buffer modules with
  | none => none
  | some (renderedModules, buffer) =>
      some ({ initialized := true, renderedModules := renderedModules }, buffer)

/-- A run of `RenderModules` calls on one buffer, one module list per call. -/
def RenderModulesSeq (P : Platform) :
    RenderModulesStatics → InternalScopedString → List (List LoadedModule) →
      Option (RenderModulesStatics × InternalScopedString)
  | statics, buffer, [] => some (statics, buffer)
  | statics, buffer, modules :: calls =>
      match RenderModules P statics buffer modules with
      | none => none
      | some (statics, buffer) => RenderModulesSeq P statics buffer calls

/-! ## Reading the buffer -/

/-- The id carried by a piece, when the piece opens a module declaration. -/
def Piece.moduleId : Piece → Option Nat
  | Piece.AppendF format (Arg.num id :: _) => if format = kModuleFormat then some id else none
  | _ => none

/-- The ids of the module declarations in the buffer, in output order. -/
def moduleIds (buffer : InternalScopedString) : List Nat :=
  buffer.filterMap Piece.moduleId

/-- The number of reset markers in the buffer. -/
def resetCount (buffer : InternalScopedString) : Nat :=
  buffer.count (Piece.Append kResetMarker)

/-- The statics are in a state the program can be in: before the first call
the vector is the empty, zero-initialised static. -/
def RenderModulesStatics.Valid (statics : RenderModulesStatics) : Prop :=
  statics.initialized = false → statics.renderedModules = []

/-- The pieces of one module declaration with identifier `id`: the opening
with id and name, one piece per build-id byte, the closing braces. -/
def moduleDeclaration (module : LoadedModule) (id : Nat) : InternalScopedString :=
  [Piece.AppendF kModuleFormat [Arg.num id, Arg.str module.full_name]]
    ++ module.uuid.map (fun byte => Piece.AppendF kUuidByteFormat [Arg.num byte])
    ++ [Piece.Append kElementEnd]

/-- The pieces of one mapping declaration of `range` for the module with
identifier `id`. -/
def mappingDeclaration (P : Platform) (module : LoadedModule) (id : Nat)
    (range : AddressRange) : InternalScopedString :=
  [Piece.AppendF kMmapFormat
      [Arg.num range.beg, Arg.num (uptr_sub P range.end range.beg), Arg.num id]]
    ++ (if range.writable then [Piece.Append "w"] else [])
    ++ (if range.executable then [Piece.Append "x"] else [])
    ++ [Piece.AppendF kMmapTailFormat [Arg.num (uptr_sub P range.beg module.base_address)]]

/-- Everything appended for a module that is registered with identifier `id`:
its declaration, then one mapping declaration per range, in range order. -/
def moduleOutput (P : Platform) (module : LoadedModule) (id : Nat) : InternalScopedString :=
  moduleDeclaration module id ++ module.ranges.flatMap (mappingDeclaration P module id)

/-- The fields of a markup element: the text cut at every colon. -/
def markupFields : List Char → List (List Char)
  | [] => [[]]
  | c :: text =>
      if c = ':' then [] :: markupFields text
      else
        match markupFields text with
        | [] => [[c]]
        | field :: fields => (c :: field) :: fields

/-- The permission field of the text of a mapping declaration
`mmap:start:length:load:id:permissions:offset`, the sixth field. -/
def permissionField (text : List Char) : List Char :=
  (markupFields text).getD 5 []

/-- The lowercase hexadecimal digit of a nibble. -/
def lowerHexDigit (nibble : Nat) : Char :=
  "0123456789abcdef".data.getD nibble '0'

/-- The two lowercase hexadecimal digits of each byte, in byte order. -/
def hexOfBytes (bytes : List Nat) : List Char :=
  bytes.flatMap (fun byte => [lowerHexDigit (byte / 16), lowerHexDigit (byte % 16)])

/-! ## Slow unwinding (sanitizer_symbolizer_fuchsia.cpp) -/

/-- The two values of `_Unwind_Reason_Code` that `Unwind_Trace` returns. -/
inductive _Unwind_Reason_Code where
  | _URC_NO_REASON
  | _URC_NORMAL_STOP
deriving DecidableEq, Repr

/-- The class `BufferedStackTrace`: the slots `trace_buffer[0 .. size)`. -/
structure BufferedStackTrace where
  trace_buffer : List Nat
deriving DecidableEq, Repr

/-- The member `size`. -/
def BufferedStackTrace.size (stack : BufferedStackTrace) : Nat := stack.trace_buffer.length

/-- The struct `UnwindTraceArg` (lines 121-124). -/
structure UnwindTraceArg where
  stack : BufferedStackTrace
  max_depth : Nat
deriving DecidableEq, Repr

/-- The callback `Unwind_Trace` (lines 126-135); `ip` is `_Unwind_GetIP(ctx)`.
`none` when `CHECK_LT(arg->stack->size, arg->max_depth)` fails. -/
def Unwind_Trace (P : Platform) (ip : Nat) (arg : UnwindTraceArg) :
    Option (_Unwind_Reason_Code × UnwindTraceArg) :=
  if arg.stack.size < arg.max_depth then
    let pc := ip
    if pc < P.PAGE_SIZE then some (_Unwind_Reason_Code._URC_NORMAL_STOP, arg)
    else
      let arg := { arg with stack := { trace_buffer := arg.stack.trace_buffer ++ [pc] } }
      some (if arg.stack.size = arg.max_depth then _Unwind_Reason_Code._URC_NORMAL_STOP
            else _Unwind_Reason_Code._URC_NO_REASON, arg)
  else none

/-- Modelled from the spec: `_Unwind_Backtrace` of the unwind library, the
external frame walker. It invokes the callback once per candidate frame, in
order, until the frames are exhausted or the callback asks to stop. -/
def _Unwind_Backtrace (callback : Nat → UnwindTraceArg → Option (_Unwind_Reason_Code × UnwindTraceArg)) :
    List Nat → UnwindTraceArg → Option UnwindTraceArg
  | [], arg => some arg
  | ip :: frames, arg =>
      match callback ip arg with
      | none => none
      | some (_Unwind_Reason_Code._URC_NO_REASON, arg) => _Unwind_Backtrace callback frames arg
      | some (_Unwind_Reason_Code._URC_NORMAL_STOP, arg) => some arg

/-- Modelled from the spec: `BufferedStackTrace::PopStackFrames` of
sanitizer_stacktrace.cpp, which is outside the sources at hand: drops the
`count` leading entries; `none` when its `CHECK_LT(count, size)` fails. -/
def PopStackFrames (stack : BufferedStackTrace) (count : Nat) : Option BufferedStackTrace :=
  if count < stack.size then some { trace_buffer := stack.trace_buffer.drop count } else none

/-- Absolute difference of two addresses. -/
def Distance (a b : Nat) : Nat := if a < b then b - a else a - b

/-- Modelled from the spec: `BufferedStackTrace::LocatePcInTrace` of
sanitizer_stacktrace.cpp, which is outside the sources at hand: the index of
the collected address closest to `pc`, the first such index on ties. -/
def LocatePcInTrace (pc : Nat) (stack : BufferedStackTrace) : Nat :=
  (List.range' 1 (stack.size - 1)).foldl
    (fun best i =>
      if Distance (stack.trace_buffer.getD i 0) pc < Distance (stack.trace_buffer.getD best 0) pc
      then i else best)
    0

/-- The method `BufferedStackTrace::UnwindSlow(uptr pc, u32 max_depth)`
(lines 137-150). `locatePc` stands for `LocatePcInTrace` and `walker` for the
addresses that the frame walker yields. `none` when a `CHECK` fails. -/
def UnwindSlow (P : Platform) (locatePc : Nat → BufferedStackTrace → Nat)
    (walker : List Nat) (pc max_depth : Nat) : Option BufferedStackTrace :=
  if max_depth ≥ 2 then
    let this : BufferedStackTrace := { trace_buffer := [] }
    let arg : UnwindTraceArg :=
      { stack := this, max_depth := min ((max_depth + 1) % 2 ^ 32) P.kStackTraceMax }
    match _Unwind_Backtrace (Unwind_Trace P) walker arg with
    | none => none
    | some arg =>
        let this := arg.stack
        if this.size > 0 then
          let to_pop := locatePc pc this
          match PopStackFrames this (min to_pop 1) with
          | none => none
          | some this => some { trace_buffer := this.trace_buffer.set 0 pc }
        else none
  else none

/-! ## Concrete modules: scenario A of the specification and variations -/

/-- Module A: base 0x1000, one executable range. -/
def moduleA : LoadedModule :=
  { full_name := "a.so", base_address := 0x1000, uuid := [0xaa, 0xaa],
    ranges := [{ beg := 0x1000, «end» := 0x2000, executable := true, writable := false }] }

/-- Module B: base 0x5000, one read-write range. -/
def moduleB : LoadedModule :=
  { full_name := "b.so", base_address := 0x5000, uuid := [0xbb, 0xbb],
    ranges := [{ beg := 0x5000, «end» := 0x5100, executable := false, writable := true }] }

/-- The statics once module A alone has been rendered. -/
def staticsAfterA : RenderModulesStatics :=
  { initialized := true
    renderedModules :=
      [{ full_name := "a.so", uuid := [0xaa, 0xaa] ++ List.replicate 30 0,
         base_address := 0x1000 }] }

/-- Module A loaded a second time, at another base address. -/
def moduleAReloaded : LoadedModule := { moduleA with base_address := 0x9000 }

/-- Module A with only the first byte of its build id. -/
def moduleAShortUuid : LoadedModule := { moduleA with uuid := [0xaa] }

/-- Module A without a build id. -/
def moduleANoUuid : LoadedModule := { moduleA with uuid := [] }

/-- A range that is neither writable nor executable. -/
def rangeReadOnly : AddressRange :=
  { beg := 0x3000, «end» := 0x4000, executable := false, writable := false }

/-- A module whose only range is neither writable nor executable. -/
def moduleReadOnly : LoadedModule :=
  { full_name := "c.so", base_address := 0x3000, uuid := [0xcc], ranges := [rangeReadOnly] }

/-! ## The context-taking form of `UnwindSlow` -/

/-- The method `BufferedStackTrace::UnwindSlow(uptr pc, void *context,
u32 max_depth)` (lines 152-156); `context` is the pointer value, 0 for null.
Behind the two `CHECK`s stands `UNREACHABLE`, which ends the process as a
failed `CHECK` does. -/
def UnwindSlowWithContext (_pc : Nat) (context : Nat) (max_depth : Nat) :
    Option BufferedStackTrace :=
  if context ≠ 0 then
    if max_depth ≥ 2 then none
    else none
  else none

/-! ## Symbolizer entry points and printers (both translation units) -/

/-- The constants of sanitizer_symbolizer_markup_constants.h, a header outside
the sources at hand, that the entry points use. -/
structure MarkupConstants where
  kFormatDemangle : String
  kFormatDemangleMax : Nat
  kFormatFunction : String
  kFormatFunctionMax : Nat
  kFormatData : String
  kFormatFrame : String
deriving DecidableEq, Repr

/-- Modelled from the spec: the values of the constants of
sanitizer_symbolizer_markup_constants.h, which is outside the sources at
hand: the demangle-request wrapper around a name, the frame-style text around
a pointer, the data declaration around a pointer, and the frame declaration
with a decimal frame number and a pointer. -/
def MarkupConstants.markup : MarkupConstants :=
  { kFormatDemangle := "\x7b\x7b\x7bsymbol:%s\x7d\x7d\x7d"
    kFormatDemangleMax := 1024
    kFormatFunction := "\x7b\x7b\x7bpc:%p\x7d\x7d\x7d"
    kFormatFunctionMax := 64
    kFormatData := "\x7b\x7b\x7bdata:%p\x7d\x7d\x7d"
    kFormatFrame := "\x7b\x7b\x7bbt:%d:%p\x7d\x7d\x7d" }

/-- Modelled from the spec: what `%s` prints for a null pointer
(`AppendString` of sanitizer_printf.cpp, outside the sources at hand). -/
def kNullString : String := "<null>"

/-- The bytes of one character in a C string: its UTF-8 encoding. -/
def utf8EncodeChar (c : Char) : List Nat :=
  let v := c.toNat
  if v ≤ 0x7f then [v]
  else if v ≤ 0x7ff then [0xc0 + v / 0x40, 0x80 + v % 0x40]
  else if v ≤ 0xffff then [0xe0 + v / 0x1000, 0x80 + v / 0x40 % 0x40, 0x80 + v % 0x40]
  else [0xf0 + v / 0x40000, 0x80 + v / 0x1000 % 0x40, 0x80 + v / 0x40 % 0x40, 0x80 + v % 0x40]

/-- The bytes of a text in a C string, terminator left out. -/
def utf8Bytes (text : List Char) : List Nat :=
  text.flatMap utf8EncodeChar

/-- Modelled from the spec: `internal_snprintf` of sanitizer_printf.cpp, which
is outside the sources at hand: the bytes left in a buffer of `length` bytes,
which are the bytes of the formatted text, cut so that they fit the buffer
together with the terminator. -/
def internal_snprintf (P : Platform) (length : Nat) (format : String) (args : List Arg) :
    List Nat :=
  (utf8Bytes (VSNPrintf P format.data args)).take (length - 1)

/-- The part of `AddressInfo` (sanitizer_symbolizer.h) that matters here; a
null string is `none`; `function` holds the bytes of the string. -/
structure AddressInfo where
  address : Nat
  module : Option String
  module_offset : Nat
  function : Option (List Nat)
  file : Option String
  line : Nat
  column : Nat
deriving DecidableEq, Repr

/-- The struct `SymbolizedStack`, one entry. -/
structure SymbolizedStack where
  info : AddressInfo
deriving DecidableEq, Repr

/-- Modelled from the spec: `SymbolizedStack::New` of sanitizer_symbolizer.cpp,
which is outside the sources at hand: a fresh entry for `addr`, nothing else
set. -/
def SymbolizedStack.New (addr : Nat) : SymbolizedStack :=
  { info := { address := addr, module := none, module_offset := 0, function := none,
              file := none, line := 0, column := 0 } }

/-- The struct `DataInfo` (sanitizer_symbolizer.h); a null string is `none`. -/
structure DataInfo where
  module : Option String
  module_offset : Nat
  file : Option String
  line : Nat
  name : Option String
  start : Nat
  size : Nat
deriving DecidableEq, Repr

/-- Modelled from the spec: `DataInfo::Clear` of sanitizer_symbolizer.cpp, which
is outside the sources at hand: every field becomes null or zero. -/
def DataInfo.Clear (_info : DataInfo) : DataInfo :=
  { module := none, module_offset := 0, file := none, line := 0, name := none,
    start := 0, size := 0 }

/-- The function `SymbolizePCMarkup` (lines 22-27 of the markup unit): the
return value and the entry after the call. -/
def SymbolizePCMarkup (K : MarkupConstants) (P : Platform) (addr : Nat)
    (stack : SymbolizedStack) : Bool × SymbolizedStack :=
  let buffer := internal_snprintf P K.kFormatFunctionMax K.kFormatFunction [Arg.num addr]
  let stack := { stack with info := { stack.info with function := some (internal_strdup buffer) } }
  (true, stack)

/-- The function `SymbolizeDataMarkup` (lines 29-33): the return value and
the `DataInfo` after the call. -/
def SymbolizeDataMarkup (addr : Nat) (info : DataInfo) : Bool × DataInfo :=
  let info := info.Clear
  let info := { info with start := addr }
  (true, info)

/-- The function `DemangleMarkup` (lines 35-39); `name` is `none` for a null
pointer, and so would be a null result. The result is the static buffer, a
`char` array of `kFormatDemangleMax` bytes, given by the bytes it holds. -/
def DemangleMarkup (K : MarkupConstants) (P : Platform) (name : Option String) :
    Option (List Nat) :=
  let buffer := internal_snprintf P K.kFormatDemangleMax K.kFormatDemangle
    [Arg.str (name.getD kNullString)]
  some buffer

/-- The function `RenderFrameMarkup` (lines 42-44); `frame_no`, an `int`, is
taken non-negative. -/
def RenderFrameMarkup (K : MarkupConstants) (buffer : InternalScopedString)
    (frame_no address : Nat) : InternalScopedString :=
  buffer ++ [Piece.AppendF K.kFormatFrame [Arg.num frame_no, Arg.num address]]

/-- The function `RenderDataMarkup` (lines 47-49). -/
def RenderDataMarkup (K : MarkupConstants) (buffer : InternalScopedString) (DI : DataInfo) :
    InternalScopedString :=
  buffer ++ [Piece.AppendF K.kFormatData [Arg.num DI.start]]

/-- The method `MarkupSymbolizer::SymbolizePC` (lines 53-55). -/
def MarkupSymbolizer.SymbolizePC (K : MarkupConstants) (P : Platform) (addr : Nat)
    (stack : SymbolizedStack) : Bool × SymbolizedStack :=
  SymbolizePCMarkup K P addr stack

/-- The method `MarkupSymbolizer::SymbolizeData` (lines 57-59). -/
def MarkupSymbolizer.SymbolizeData (addr : Nat) (info : DataInfo) : Bool × DataInfo :=
  SymbolizeDataMarkup addr info

/-- The method `MarkupSymbolizer::Demangle` (lines 63-65). -/
def MarkupSymbolizer.Demangle (K : MarkupConstants) (P : Platform) (name : Option String) :
    Option (List Nat) :=
  DemangleMarkup K P name

/-- The method `MarkupStackTracePrinter::StripFunctionName` (lines 67-73). -/
def MarkupStackTracePrinter.StripFunctionName (function : Option String) : Option String :=
  if function.isNone then none else function

/-- The method `MarkupStackTracePrinter::RenderData` (lines 76-80). -/
def MarkupStackTracePrinter.RenderData (K : MarkupConstants) (buffer : InternalScopedString)
    (_format : String) (DI : DataInfo) ( _strip_path_prefix : String) : InternalScopedString :=
  RenderDataMarkup K buffer DI

/-- The method `MarkupStackTracePrinter::RenderNeedsSymbolization`
(lines 82-84). -/
def MarkupStackTracePrinter.RenderNeedsSymbolization (_format : String) : Bool := false

/-- The method `MarkupStackTracePrinter::RenderFrame` (lines 87-94); `none`
when its `CHECK` fails. -/
def MarkupStackTracePrinter.RenderFrame (K : MarkupConstants) (buffer : InternalScopedString)
    (format : String) (frame_no address : Nat) (_info : AddressInfo) (_vs_style : Bool)
    ( _strip_path_prefix : String) : Option InternalScopedString :=
  if !MarkupStackTracePrinter.RenderNeedsSymbolization format then
    some (RenderFrameMarkup K buffer frame_no address)
  else none

/-- The method `FuchsiaStackTracePrinter::StripFunctionName` (lines 30-36 of
the Fuchsia unit). -/
def FuchsiaStackTracePrinter.StripFunctionName (function : Option String) : Option String :=
  if function.isNone then none else function

/-- The method `FuchsiaStackTracePrinter::RenderFrame` (lines 38-42). -/
def FuchsiaStackTracePrinter.RenderFrame (K : MarkupConstants) (buffer : InternalScopedString)
    (_format : String) (frame_no address : Nat) (_info : AddressInfo) (_vs_style : Bool)
    ( _strip_path_prefix : String) : InternalScopedString :=
  RenderFrameMarkup K buffer frame_no address

/-- The method `FuchsiaStackTracePrinter::RenderNeedsSymbolization` (line 44). -/
def FuchsiaStackTracePrinter.RenderNeedsSymbolization (_format : String) : Bool := false

/-- The method `FuchsiaStackTracePrinter::RenderData` (lines 46-50). -/
def FuchsiaStackTracePrinter.RenderData (K : MarkupConstants) (buffer : InternalScopedString)
    (_format : String) (DI : DataInfo) ( _strip_path_prefix : String) : InternalScopedString :=
  RenderDataMarkup K buffer DI

/-- The method `Symbolizer::Demangle` (lines 81-83). -/
def Symbolizer.Demangle (K : MarkupConstants) (P : Platform) (name : Option String) :
    Option (List Nat) :=
  DemangleMarkup K P name

/-- The method `Symbolizer::SymbolizePC` (lines 99-103); the result is the
pointer to the new entry, never null. -/
def Symbolizer.SymbolizePC (K : MarkupConstants) (P : Platform) (addr : Nat) :
    Option SymbolizedStack :=
  let s := SymbolizedStack.New addr
  let s := (SymbolizePCMarkup K P addr s).2
  some s

/-- The method `Symbolizer::SymbolizeData` (lines 105-107). -/
def Symbolizer.SymbolizeData (addr : Nat) (info : DataInfo) : Bool × DataInfo :=
  SymbolizeDataMarkup addr info

/-- A name of 1100 characters, longer than the demangle buffer. -/
def longName : String := String.mk (List.replicate 1100 'a')

/-- A `DataInfo` with every field populated. -/
def staleDataInfo : DataInfo :=
  { module := some "a.so", module_offset := 0x10, file := some "a.c", line := 7,
    name := some "g", start := 0x5000, size := 4 }

/-- A name of 600 two-byte characters: its wrapper text has 613 characters
and 1213 bytes. -/
def accentedName : String := String.mk (List.replicate 600 'é')

/-! ## Basic facts about the helpers -/

theorem internal_strcmp_eq_zero (s1 s2 : List Char) :
    internal_strcmp s1 s2 = 0 ↔ s1 = s2 := by
  induction s1 generalizing s2 with
  | nil => cases s2 <;> simp [internal_strcmp]
  | cons c1 s1 ih =>
    cases s2 with
    | nil => simp [internal_strcmp]
    | cons c2 s2 =>
      by_cases h : c1 = c2
      · simp [internal_strcmp, h, ih]
      · by_cases h2 : c1 < c2 <;> simp [internal_strcmp, h, h2]

theorem internal_memcmp_eq_zero (s1 s2 : List Nat) (h : s1.length ≤ s2.length) :
    internal_memcmp s1 s2 s1.length = 0 ↔ s1 <+: s2 := by
  induction s1 generalizing s2 with
  | nil => simp [internal_memcmp]
  | cons b1 s1 ih =>
    cases s2 with
    | nil => simp at h
    | cons b2 s2 =>
      have h2 : s1.length ≤ s2.length := by simpa using h
      by_cases hb : b1 = b2
      · simp [internal_memcmp, hb, ih s2 h2, List.cons_prefix_cons]
      · by_cases hlt : b1 < b2 <;> simp [internal_memcmp, hb, hlt, List.cons_prefix_cons]

theorem renderUuid_eq (buffer : InternalScopedString) (uuid : List Nat) :
    renderUuid buffer uuid =
      buffer ++ uuid.map (fun byte => Piece.AppendF kUuidByteFormat [Arg.num byte]) := by
  induction uuid generalizing buffer with
  | nil => simp [renderUuid]
  | cons byte uuid ih =>
    have h := ih (buffer ++ [Piece.AppendF kUuidByteFormat [Arg.num byte]])
    simp only [renderUuid, List.foldl_cons] at h ⊢
    rw [h]; simp

theorem renderRange_eq (P : Platform) (module : LoadedModule) (id : Nat)
    (buffer : InternalScopedString) (range : AddressRange) :
    renderRange P module id buffer range = buffer ++ mappingDeclaration P module id range := by
  cases hw : range.writable <;> cases hx : range.executable <;>
    simp [renderRange, mappingDeclaration, hw, hx]

theorem foldl_renderRange (P : Platform) (module : LoadedModule) (id : Nat)
    (buffer : InternalScopedString) (ranges : List AddressRange) :
    ranges.foldl (renderRange P module id) buffer =
      buffer ++ ranges.flatMap (mappingDeclaration P module id) := by
  induction ranges generalizing buffer with
  | nil => simp
  | cons range ranges ih =>
    simp only [List.foldl_cons, List.flatMap_cons, ih, renderRange_eq, List.append_assoc]

theorem recordModule_of_le (P : Platform) (module : LoadedModule)
    (h : module.uuid_size ≤ P.kModuleUUIDSize) :
    recordModule P module = some
      { full_name := module.full_name
        uuid := module.uuid ++ List.replicate (P.kModuleUUIDSize - module.uuid_size) 0
        base_address := module.base_address } := by
  have h2 : module.uuid.length ≤ P.kModuleUUIDSize := h
  simp [recordModule, h2, RenderedModule.zero, internal_strdup, internal_memcpy,
    LoadedModule.uuid_size]

theorem recordModule_eq_some (P : Platform) (module : LoadedModule) (r : RenderedModule)
    (h : recordModule P module = some r) :
    module.uuid_size ≤ P.kModuleUUIDSize ∧
      r = { full_name := module.full_name
            uuid := module.uuid ++ List.replicate (P.kModuleUUIDSize - module.uuid_size) 0
            base_address := module.base_address } := by
  by_cases hle : module.uuid_size ≤ P.kModuleUUIDSize
  · rw [recordModule_of_le P module hle] at h
    exact ⟨hle, (Option.some.inj h).symm⟩
  · simp [recordModule, hle] at h

theorem ModulesEq_iff (module : LoadedModule) (r : RenderedModule)
    (h : module.uuid_size ≤ r.uuid.length) :
    ModulesEq module r = true ↔
      module.base_address = r.base_address ∧ module.uuid <+: r.uuid ∧
        module.full_name = r.full_name := by
  have hs : module.full_name.data = r.full_name.data ↔ module.full_name = r.full_name :=
    ⟨fun hd => String.ext hd, fun hd => by rw [hd]⟩
  simp [ModulesEq, LoadedModule.uuid_size, internal_strcmp_eq_zero,
    internal_memcmp_eq_zero module.uuid r.uuid h, hs, and_assoc]

theorem ModulesEq_recordModule (P : Platform) (module : LoadedModule) (r : RenderedModule)
    (h : recordModule P module = some r) : ModulesEq module r = true := by
  obtain ⟨hle, rfl⟩ := recordModule_eq_some P module r h
  rw [ModulesEq_iff]
  · simp
  · simp [LoadedModule.uuid_size]

theorem ModuleHasBeenRendered_append (module : LoadedModule) (rs₁ rs₂ : List RenderedModule) :
    ModuleHasBeenRendered module (rs₁ ++ rs₂) =
      (ModuleHasBeenRendered module rs₁ || ModuleHasBeenRendered module rs₂) := by
  induction rs₁ with
  | nil => simp [ModuleHasBeenRendered]
  | cons r rs₁ ih =>
    by_cases h : ModulesEq module r = true <;> simp [ModuleHasBeenRendered, h, ih]

theorem ModuleHasBeenRendered_ne_nil (module : LoadedModule) (rs : List RenderedModule)
    (h : ModuleHasBeenRendered module rs = true) : rs ≠ [] := by
  intro hnil
  simp [hnil, ModuleHasBeenRendered] at h

theorem renderLoop_cons_rendered (P : Platform) (rs : List RenderedModule)
    (buffer : InternalScopedString) (module : LoadedModule) (rest : List LoadedModule)
    (h : ModuleHasBeenRendered module rs = true) :
    renderLoop P rs buffer (module :: rest) = renderLoop P rs buffer rest := by
  simp [renderLoop, h]

theorem renderLoop_cons_new (P : Platform) (rs : List RenderedModule)
    (buffer : InternalScopedString) (module : LoadedModule) (rest : List LoadedModule)
    (r : RenderedModule) (h : ModuleHasBeenRendered module rs = false)
    (hr : recordModule P module = some r) :
    renderLoop P rs buffer (module :: rest) =
      renderLoop P (rs ++ [r]) (buffer ++ moduleOutput P module rs.length) rest := by
  simp [renderLoop, h, hr, renderUuid_eq, foldl_renderRange, moduleOutput, moduleDeclaration]

theorem renderLoop_cons_new_none (P : Platform) (rs : List RenderedModule)
    (buffer : InternalScopedString) (module : LoadedModule) (rest : List LoadedModule)
    (h : ModuleHasBeenRendered module rs = false)
    (hr : recordModule P module = none) :
    renderLoop P rs buffer (module :: rest) = none := by
  simp [renderLoop, h, hr]

theorem renderLoop_append (P : Platform) (modules₁ modules₂ : List LoadedModule)
    (rs : List RenderedModule) (buffer : InternalScopedString) :
    renderLoop P rs buffer (modules₁ ++ modules₂) =
      (renderLoop P rs buffer modules₁).bind (fun x => renderLoop P x.1 x.2 modules₂) := by
  induction modules₁ generalizing rs buffer with
  | nil => simp [renderLoop]
  | cons module modules₁ ih =>
    cases h : ModuleHasBeenRendered module rs with
    | true =>
      rw [List.cons_append, renderLoop_cons_rendered P rs buffer module _ h,
        renderLoop_cons_rendered P rs buffer module _ h, ih]
    | false =>
      cases hr : recordModule P module with
      | none =>
        rw [List.cons_append, renderLoop_cons_new_none P rs buffer module _ h hr,
          renderLoop_cons_new_none P rs buffer module _ h hr]
        rfl
      | some r =>
        rw [List.cons_append, renderLoop_cons_new P rs buffer module _ r h hr,
          renderLoop_cons_new P rs buffer module _ r h hr, ih]

theorem renderLoop_all_rendered (P : Platform) (modules : List LoadedModule)
    (rs : List RenderedModule) (buffer : InternalScopedString)
    (h : ∀ module ∈ modules, ModuleHasBeenRendered module rs = true) :
    renderLoop P rs buffer modules = some (rs, buffer) := by
  induction modules with
  | nil => simp [renderLoop]
  | cons module modules ih =>
    rw [renderLoop_cons_rendered P rs buffer module _ (h module (List.mem_cons_self _ _))]
    exact ih (fun m hm => h m (List.mem_cons_of_mem _ hm))

theorem moduleIds_append (b₁ b₂ : InternalScopedString) :
    moduleIds (b₁ ++ b₂) = moduleIds b₁ ++ moduleIds b₂ := by
  simp [moduleIds]

theorem resetCount_append (b₁ b₂ : InternalScopedString) :
    resetCount (b₁ ++ b₂) = resetCount b₁ + resetCount b₂ := by
  simp [resetCount]

theorem moduleIds_mappingDeclaration (P : Platform) (module : LoadedModule) (id : Nat)
    (range : AddressRange) : moduleIds (mappingDeclaration P module id range) = [] := by
  have h1 : kMmapFormat ≠ kModuleFormat := by decide
  have h2 : kMmapTailFormat ≠ kModuleFormat := by decide
  cases hw : range.writable <;> cases hx : range.executable <;>
    simp [mappingDeclaration, moduleIds, Piece.moduleId, hw, hx, h1, h2]

theorem moduleIds_moduleOutput (P : Platform) (module : LoadedModule) (id : Nat) :
    moduleIds (moduleOutput P module id) = [id] := by
  have h1 : kUuidByteFormat ≠ kModuleFormat := by decide
  have h2 : ∀ ranges : List AddressRange,
      moduleIds (ranges.flatMap (mappingDeclaration P module id)) = [] := by
    intro ranges
    induction ranges with
    | nil => simp [moduleIds]
    | cons range ranges ih =>
      rw [List.flatMap_cons, moduleIds_append, moduleIds_mappingDeclaration, ih]; rfl
  have h3 : moduleIds (module.uuid.map
      (fun byte => Piece.AppendF kUuidByteFormat [Arg.num byte])) = [] := by
    induction module.uuid with
    | nil => simp [moduleIds]
    | cons byte uuid ih =>
      simp only [moduleIds] at ih
      simp [moduleIds, Piece.moduleId, h1, ih]
  rw [moduleOutput, moduleDeclaration, moduleIds_append, moduleIds_append, moduleIds_append,
    h2, h3]
  simp [moduleIds, Piece.moduleId]

theorem resetCount_mappingDeclaration (P : Platform) (module : LoadedModule) (id : Nat)
    (range : AddressRange) : resetCount (mappingDeclaration P module id range) = 0 := by
  have h1 : ("w" : String) ≠ kResetMarker := by decide
  have h2 : ("x" : String) ≠ kResetMarker := by decide
  cases hw : range.writable <;> cases hx : range.executable <;>
    simp [mappingDeclaration, resetCount, hw, hx, h1, h2, List.count_cons]

theorem resetCount_moduleOutput (P : Platform) (module : LoadedModule) (id : Nat) :
    resetCount (moduleOutput P module id) = 0 := by
  have h1 : kElementEnd ≠ kResetMarker := by decide
  have h2 : ∀ ranges : List AddressRange,
      resetCount (ranges.flatMap (mappingDeclaration P module id)) = 0 := by
    intro ranges
    induction ranges with
    | nil => simp [resetCount]
    | cons range ranges ih =>
      rw [List.flatMap_cons, resetCount_append, resetCount_mappingDeclaration, ih]
  have h3 : resetCount (module.uuid.map
      (fun byte => Piece.AppendF kUuidByteFormat [Arg.num byte])) = 0 := by
    induction module.uuid with
    | nil => simp [resetCount]
    | cons byte uuid ih =>
      simp only [resetCount] at ih
      simp [resetCount, List.count_cons, ih]
  rw [moduleOutput, moduleDeclaration, resetCount_append, resetCount_append,
    resetCount_append, h2, h3]
  simp [resetCount, List.count_cons, h1]

theorem head?_moduleOutput (P : Platform) (module : LoadedModule) (id : Nat)
    (rest : InternalScopedString) :
    (moduleOutput P module id ++ rest).head? =
      some (Piece.AppendF kModuleFormat [Arg.num id, Arg.str module.full_name]) := by
  simp [moduleOutput, moduleDeclaration]

/-- What one run of the loop does, for module lists whose build ids fit the
record: the records and the pieces it adds do not depend on the buffer, every
module of the list is registered afterwards, the ids of the declarations
continue the count of the registry, no reset marker is among the pieces, and
the pieces, when there are any, begin with the opening of a module
declaration. -/
theorem renderLoop_spec (P : Platform) (modules : List LoadedModule) :
    ∀ rs : List RenderedModule,
      (∀ module ∈ modules, module.uuid_size ≤ P.kModuleUUIDSize) →
      ∃ (news : List RenderedModule) (out : InternalScopedString),
        (∀ buffer, renderLoop P rs buffer modules = some (rs ++ news, buffer ++ out)) ∧
        (∀ module ∈ modules, ModuleHasBeenRendered module (rs ++ news) = true) ∧
        moduleIds out = List.range' rs.length news.length ∧
        resetCount out = 0 ∧
        (modules ≠ [] → rs ++ news ≠ []) ∧
        (∀ piece, out.head? = some piece →
          ∃ id name, piece = Piece.AppendF kModuleFormat [Arg.num id, Arg.str name]) := by
  induction modules with
  | nil =>
    intro rs _
    exact ⟨[], [], by simp [renderLoop], by simp, by simp [moduleIds], by simp [resetCount],
      by simp, by simp⟩
  | cons module modules ih =>
    intro rs hwf
    have hwf' : ∀ m ∈ modules, m.uuid_size ≤ P.kModuleUUIDSize :=
      fun m hm => hwf m (List.mem_cons_of_mem _ hm)
    cases h : ModuleHasBeenRendered module rs with
    | true =>
      obtain ⟨news, out, hrun, hall, hids, hreset, _, hhead⟩ := ih rs hwf'
      refine ⟨news, out, ?_, ?_, hids, hreset, ?_, hhead⟩
      · intro buffer
        rw [renderLoop_cons_rendered P rs buffer module _ h]; exact hrun buffer
      · intro m hm
        rcases List.mem_cons.mp hm with rfl | hm
        · rw [ModuleHasBeenRendered_append, h]; rfl
        · exact hall m hm
      · intro _ hnil
        have := ModuleHasBeenRendered_ne_nil module rs h
        simp at hnil
        exact this hnil.1
    | false =>
      have hle := hwf module (List.mem_cons_self _ _)
      have hr := recordModule_of_le P module hle
      generalize hrdef : ({ full_name := module.full_name
                            uuid := module.uuid ++
                              List.replicate (P.kModuleUUIDSize - module.uuid_size) 0
                            base_address := module.base_address } : RenderedModule) = r at hr
      obtain ⟨news, out, hrun, hall, hids, hreset, _, _⟩ := ih (rs ++ [r]) hwf'
      refine ⟨r :: news, moduleOutput P module rs.length ++ out, ?_, ?_, ?_, ?_, ?_, ?_⟩
      · intro buffer
        rw [renderLoop_cons_new P rs buffer module _ _ h hr, hrun]
        simp
      · intro m hm
        rcases List.mem_cons.mp hm with rfl | hm
        · rw [ModuleHasBeenRendered_append]
          have := ModulesEq_recordModule P m _ hr
          simp [ModuleHasBeenRendered, this]
        · have := hall m hm
          simpa using this
      · rw [moduleIds_append, moduleIds_moduleOutput, hids]
        simp [List.range'_succ]
      · rw [resetCount_append, resetCount_moduleOutput, hreset]
      · intro _; simp
      · intro piece hp
        rw [head?_moduleOutput] at hp
        exact ⟨rs.length, module.full_name, (Option.some.inj hp).symm⟩

theorem renderLoop_grows (P : Platform) (modules : List LoadedModule) :
    ∀ (rs : List RenderedModule) (buffer : InternalScopedString)
      (rs' : List RenderedModule) (buffer' : InternalScopedString),
      renderLoop P rs buffer modules = some (rs', buffer') → rs <+: rs' := by
  induction modules with
  | nil =>
    intro rs buffer rs' buffer' h
    simp [renderLoop] at h
    rw [h.1]
  | cons module modules ih =>
    intro rs buffer rs' buffer' h
    cases hm : ModuleHasBeenRendered module rs with
    | true =>
      rw [renderLoop_cons_rendered P rs buffer module _ hm] at h
      exact ih rs buffer rs' buffer' h
    | false =>
      cases hr : recordModule P module with
      | none =>
        rw [renderLoop_cons_new_none P rs buffer module _ hm hr] at h
        cases h
      | some r =>
        rw [renderLoop_cons_new P rs buffer module _ r hm hr] at h
        exact (List.prefix_append rs [r]).trans (ih _ _ rs' buffer' h)

theorem initializedVector_of_valid (statics : RenderModulesStatics) (hv : statics.Valid) :
    initializedVector statics = statics.renderedModules := by
  cases hi : statics.initialized with
  | true => simp [initializedVector, hi]
  | false => simp [initializedVector, hi, hv hi]

theorem initializedVector_of_initialized (statics : RenderModulesStatics)
    (hi : statics.initialized = true) :
    initializedVector statics = statics.renderedModules := by
  simp [initializedVector, hi]

theorem RenderModules_eq (P : Platform) (statics : RenderModulesStatics)
    (buffer : InternalScopedString) (modules : List LoadedModule) :
    RenderModules P statics buffer modules =
      (renderLoop P (initializedVector statics)
        (buffer ++ (if (initializedVector statics).length = 0
          then [Piece.Append kResetMarker] else [])) modules).map
        (fun x => ({ initialized := true, renderedModules := x.1 }, x.2)) := by
  unfold RenderModules
  by_cases h : (initializedVector statics).length = 0
  · simp only [h, beq_self_eq_true, if_true]
    generalize renderLoop P (initializedVector statics) (buffer ++ [Piece.Append kResetMarker])
      modules = o
    cases o <;> rfl
  · have h' : ((initializedVector statics).length == 0) = false := by simpa using h
    simp only [h, h', Bool.false_eq_true, if_false, List.append_nil]
    generalize renderLoop P (initializedVector statics) buffer modules = o
    cases o <;> rfl

/-- What one call of `RenderModules` does, for a module list whose build ids
fit the record. -/
theorem RenderModules_spec (P : Platform) (statics : RenderModulesStatics)
    (modules : List LoadedModule)
    (hwf : ∀ module ∈ modules, module.uuid_size ≤ P.kModuleUUIDSize) :
    ∃ (news : List RenderedModule) (out : InternalScopedString),
      (∀ buffer, RenderModules P statics buffer modules =
        some ({ initialized := true, renderedModules := initializedVector statics ++ news },
          buffer ++ ((if (initializedVector statics).length = 0
            then [Piece.Append kResetMarker] else []) ++ out))) ∧
      (∀ module ∈ modules,
        ModuleHasBeenRendered module (initializedVector statics ++ news) = true) ∧
      moduleIds out = List.range' (initializedVector statics).length news.length ∧
      resetCount out = 0 ∧
      (modules ≠ [] → initializedVector statics ++ news ≠ []) ∧
      (∀ piece, out.head? = some piece →
        ∃ id name, piece = Piece.AppendF kModuleFormat [Arg.num id, Arg.str name]) := by
  obtain ⟨news, out, hrun, hrest⟩ := renderLoop_spec P modules (initializedVector statics) hwf
  refine ⟨news, out, ?_, hrest⟩
  intro buffer
  rw [RenderModules_eq, hrun]
  simp

theorem RenderModules_grows (P : Platform) (statics statics' : RenderModulesStatics)
    (buffer buffer' : InternalScopedString) (modules : List LoadedModule)
    (h : RenderModules P statics buffer modules = some (statics', buffer')) :
    initializedVector statics <+: statics'.renderedModules ∧ statics'.initialized = true := by
  rw [RenderModules_eq] at h
  cases hl : renderLoop P (initializedVector statics)
      (buffer ++ (if (initializedVector statics).length = 0
        then [Piece.Append kResetMarker] else [])) modules with
  | none => rw [hl] at h; cases h
  | some x =>
    rw [hl] at h
    obtain ⟨rs', b'⟩ := x
    have hp := renderLoop_grows P modules _ _ rs' b' hl
    simp only [Option.map_some', Option.some.injEq, Prod.mk.injEq] at h
    rw [← h.1]
    exact ⟨hp, rfl⟩

theorem RenderModulesSeq_grows (P : Platform) (calls : List (List LoadedModule)) :
    ∀ (statics statics' : RenderModulesStatics) (buffer buffer' : InternalScopedString),
      statics.Valid → RenderModulesSeq P statics buffer calls = some (statics', buffer') →
      statics.renderedModules <+: statics'.renderedModules ∧ statics'.Valid := by
  induction calls with
  | nil =>
    intro statics statics' buffer buffer' hv h
    simp only [RenderModulesSeq, Option.some.injEq, Prod.mk.injEq] at h
    rw [← h.1]
    exact ⟨List.prefix_refl _, hv⟩
  | cons modules calls ih =>
    intro statics statics' buffer buffer' hv h
    cases h1 : RenderModules P statics buffer modules with
    | none => simp [RenderModulesSeq, h1] at h
    | some x =>
      obtain ⟨statics₁, buffer₁⟩ := x
      simp only [RenderModulesSeq, h1] at h
      obtain ⟨hp, hi⟩ := RenderModules_grows P statics statics₁ buffer buffer₁ modules h1
      rw [initializedVector_of_valid statics hv] at hp
      have hv₁ : statics₁.Valid := fun hf => by rw [hi] at hf; cases hf
      obtain ⟨hp', hv'⟩ := ih statics₁ statics' buffer₁ buffer' hv₁ h
      exact ⟨hp.trans hp', hv'⟩

theorem RenderModulesSeq_spec (P : Platform) (calls : List (List LoadedModule)) :
    ∀ (statics : RenderModulesStatics),
      (∀ modules ∈ calls, ∀ module ∈ modules, module.uuid_size ≤ P.kModuleUUIDSize) →
      ∃ (statics' : RenderModulesStatics) (out : InternalScopedString),
        (∀ buffer, RenderModulesSeq P statics buffer calls = some (statics', buffer ++ out)) ∧
        (initializedVector statics).length ≤ (initializedVector statics').length ∧
        moduleIds out = List.range' (initializedVector statics).length
          ((initializedVector statics').length - (initializedVector statics).length) := by
  induction calls with
  | nil =>
    intro statics _
    exact ⟨statics, [], by simp [RenderModulesSeq], le_refl _, by simp [moduleIds]⟩
  | cons modules calls ih =>
    intro statics hwf
    obtain ⟨news, out, hrun, _, hids, _, _, _⟩ :=
      RenderModules_spec P statics modules (hwf modules (List.mem_cons_self _ _))
    obtain ⟨statics', out', hrun', hle', hids'⟩ :=
      ih { initialized := true, renderedModules := initializedVector statics ++ news }
        (fun ms hms => hwf ms (List.mem_cons_of_mem _ hms))
    have hvec : initializedVector
        { initialized := true, renderedModules := initializedVector statics ++ news } =
        initializedVector statics ++ news := rfl
    rw [hvec] at hle' hids'
    rw [List.length_append] at hle' hids'
    refine ⟨statics', (if (initializedVector statics).length = 0
      then [Piece.Append kResetMarker] else []) ++ out ++ out', ?_, by omega, ?_⟩
    · intro buffer
      simp only [RenderModulesSeq, hrun, hrun']
      simp
    · have hreset : moduleIds (if (initializedVector statics).length = 0
          then [Piece.Append kResetMarker] else []) = [] := by
        split <;> simp [moduleIds, Piece.moduleId]
      rw [moduleIds_append, moduleIds_append, hreset, hids, hids', List.nil_append]
      have hsplit := List.range'_append (initializedVector statics).length news.length
        ((initializedVector statics').length -
          ((initializedVector statics).length + news.length)) 1
      simp only [Nat.one_mul] at hsplit
      rw [hsplit]
      congr 1
      omega

/-! ## Properties of `RenderModules` -/

/-- A module met by the loop while it is not yet registered: the call appends,
right after what the modules before it produced, the output of that module
under the identifier equal to the size of the registry at that moment, and
registers the module at that position. -/
theorem RenderModules_new_module (P : Platform) (statics statics₁ : RenderModulesStatics)
    (buffer buffer₁ : InternalScopedString) (before : List LoadedModule)
    (module : LoadedModule) (after : List LoadedModule)
    (hwf : ∀ m ∈ module :: after, m.uuid_size ≤ P.kModuleUUIDSize)
    (h1 : RenderModules P statics buffer before = some (statics₁, buffer₁))
    (hnew : ModuleHasBeenRendered module statics₁.renderedModules = false) :
    ∃ (r : RenderedModule) (news : List RenderedModule) (rest : InternalScopedString),
      recordModule P module = some r ∧
      RenderModules P statics buffer (before ++ module :: after) =
        some ({ initialized := true
                renderedModules := statics₁.renderedModules ++ r :: news },
          buffer₁ ++ (moduleOutput P module statics₁.renderedModules.length ++ rest)) ∧
      (∀ piece, rest.head? = some piece →
        ∃ id name, piece = Piece.AppendF kModuleFormat [Arg.num id, Arg.str name]) := by
  have hr := recordModule_of_le P module (hwf module (List.mem_cons_self _ _))
  generalize hrdef : ({ full_name := module.full_name
                        uuid := module.uuid ++
                          List.replicate (P.kModuleUUIDSize - module.uuid_size) 0
                        base_address := module.base_address } : RenderedModule) = r at hr
  obtain ⟨news, rest, hrun, _, _, _, _, hhead⟩ :=
    renderLoop_spec P after (statics₁.renderedModules ++ [r])
      (fun m hm => hwf m (List.mem_cons_of_mem _ hm))
  refine ⟨r, news, rest, hr, ?_, hhead⟩
  rw [RenderModules_eq] at h1 ⊢
  rw [renderLoop_append]
  cases hl : renderLoop P (initializedVector statics)
      (buffer ++ (if (initializedVector statics).length = 0
        then [Piece.Append kResetMarker] else [])) before with
  | none => rw [hl] at h1; cases h1
  | some x =>
    obtain ⟨rs₁, b₁⟩ := x
    rw [hl] at h1
    simp only [Option.map_some', Option.some.injEq, Prod.mk.injEq] at h1
    obtain ⟨hs, hb⟩ := h1
    subst hs; subst hb
    simp only [Option.some_bind]
    rw [renderLoop_cons_new P rs₁ b₁ module after r hnew hr, hrun]
    simp

/-- C1 (dedup idempotence). From every state of the statics, on every buffer
and for every non-empty module list whose build ids fit the record
(`uuid_size <= kModuleUUIDSize`), `RenderModules` completes, and a second call
with the same list, on whatever buffer, completes too, appends nothing to that
buffer (no module declaration, no mapping declaration, no reset marker) and
leaves the registry unchanged. -/
theorem RenderModules_twice_appends_nothing (P : Platform) (statics : RenderModulesStatics)
    (buffer : InternalScopedString) (modules : List LoadedModule) (hne : modules ≠ [])
    (hwf : ∀ module ∈ modules, module.uuid_size ≤ P.kModuleUUIDSize) :
    ∃ (statics₁ : RenderModulesStatics) (buffer₁ : InternalScopedString),
      RenderModules P statics buffer modules = some (statics₁, buffer₁) ∧
      ∀ buffer₂, RenderModules P statics₁ buffer₂ modules = some (statics₁, buffer₂) := by
  obtain ⟨news, out, hrun, hall, _, _, hnonempty, _⟩ := RenderModules_spec P statics modules hwf
  refine ⟨_, _, hrun buffer, ?_⟩
  intro buffer₂
  have hvec : initializedVector
      { initialized := true, renderedModules := initializedVector statics ++ news } =
      initializedVector statics ++ news := rfl
  have hlen : (initializedVector statics ++ news).length ≠ 0 := by
    intro h0
    exact hnonempty hne (List.length_eq_zero.mp h0)
  rw [RenderModules_eq, hvec, if_neg hlen, List.append_nil,
    renderLoop_all_rendered P modules _ buffer₂ hall]
  rfl

/-- A concrete instance of C1: scenario A rendered twice. -/
theorem RenderModules_twice_appends_nothing_witness :
    [moduleA, moduleB] ≠ [] ∧
    (∀ module ∈ [moduleA, moduleB], module.uuid_size ≤ Platform.lp64.kModuleUUIDSize) ∧
    ∃ (statics₁ : RenderModulesStatics) (buffer₁ : InternalScopedString),
      RenderModules Platform.lp64 RenderModulesStatics.initial [] [moduleA, moduleB] =
        some (statics₁, buffer₁) ∧
      ∀ buffer₂, RenderModules Platform.lp64 statics₁ buffer₂ [moduleA, moduleB] =
        some (statics₁, buffer₂) :=
  ⟨by decide, by decide,
    RenderModules_twice_appends_nothing Platform.lp64 RenderModulesStatics.initial []
      [moduleA, moduleB] (by decide) (by decide)⟩

/-- C2 (monotonic gap-free identifiers). Starting from the statics of process
start, every finite run of `RenderModules` calls on module lists whose build
ids fit the record completes, and the ids of the module declarations it
appends, read in output order across all the calls, are exactly
`0, 1, ..., k-1`, where `k` is the final size of the registry. Moreover, in
any call, a module that the loop reaches while it is not registered gets a
declaration whose id is the size of the registry at that moment, and its
record is stored at that very position. -/
theorem RenderModulesSeq_ids_count_up (P : Platform) (calls : List (List LoadedModule))
    (hwf : ∀ modules ∈ calls, ∀ module ∈ modules, module.uuid_size ≤ P.kModuleUUIDSize) :
    (∃ (statics' : RenderModulesStatics) (out : InternalScopedString),
      (∀ buffer, RenderModulesSeq P RenderModulesStatics.initial buffer calls =
        some (statics', buffer ++ out)) ∧
      moduleIds out = List.range statics'.renderedModules.length) ∧
    (∀ (statics statics₁ : RenderModulesStatics) (buffer buffer₁ : InternalScopedString)
      (before : List LoadedModule) (module : LoadedModule) (after : List LoadedModule),
      (∀ m ∈ module :: after, m.uuid_size ≤ P.kModuleUUIDSize) →
      RenderModules P statics buffer before = some (statics₁, buffer₁) →
      ModuleHasBeenRendered module statics₁.renderedModules = false →
      ∃ (statics₂ : RenderModulesStatics) (r : RenderedModule) (rest : InternalScopedString),
        recordModule P module = some r ∧
        RenderModules P statics buffer (before ++ module :: after) =
          some (statics₂, buffer₁ ++ Piece.AppendF kModuleFormat
            [Arg.num statics₁.renderedModules.length, Arg.str module.full_name] :: rest) ∧
        statics₂.renderedModules[statics₁.renderedModules.length]? = some r) := by
  constructor
  · obtain ⟨statics', out, hrun, _, hids⟩ :=
      RenderModulesSeq_spec P calls RenderModulesStatics.initial hwf
    refine ⟨statics', out, hrun, ?_⟩
    have h0 : (initializedVector RenderModulesStatics.initial).length = 0 := rfl
    rw [h0, Nat.sub_zero] at hids
    rw [hids, List.range_eq_range']
    congr 1
    have hv : statics'.Valid :=
      (RenderModulesSeq_grows P calls RenderModulesStatics.initial statics' [] ([] ++ out)
        (fun _ => rfl) (hrun [])).2
    rw [initializedVector_of_valid statics' hv]
  · intro statics statics₁ buffer buffer₁ before module after hwf' h1 hnew
    obtain ⟨r, news, rest, hr, hrun, _⟩ :=
      RenderModules_new_module P statics statics₁ buffer buffer₁ before module after hwf' h1 hnew
    refine ⟨{ initialized := true, renderedModules := statics₁.renderedModules ++ r :: news },
      r, (module.uuid.map (fun byte => Piece.AppendF kUuidByteFormat [Arg.num byte])
        ++ [Piece.Append kElementEnd])
        ++ module.ranges.flatMap (mappingDeclaration P module statics₁.renderedModules.length)
        ++ rest, hr, ?_, ?_⟩
    · rw [hrun]
      simp [moduleOutput, moduleDeclaration]
    · show (statics₁.renderedModules ++ r :: news)[statics₁.renderedModules.length]? = some r
      rw [List.getElem?_append_right (le_refl _)]
      simp

/-- A concrete instance of C2: scenario A, then A alone, then B and A. The ids
of the whole run are 0 for A and 1 for B. -/
theorem RenderModulesSeq_ids_count_up_witness :
    (∀ modules ∈ [[moduleA, moduleB], [moduleA], [moduleB, moduleA]],
      ∀ module ∈ modules, module.uuid_size ≤ Platform.lp64.kModuleUUIDSize) ∧
    (∃ (statics' : RenderModulesStatics) (out : InternalScopedString),
      (∀ buffer, RenderModulesSeq Platform.lp64 RenderModulesStatics.initial buffer
        [[moduleA, moduleB], [moduleA], [moduleB, moduleA]] = some (statics', buffer ++ out)) ∧
      moduleIds out = List.range statics'.renderedModules.length) ∧
    (RenderModulesSeq Platform.lp64 RenderModulesStatics.initial []
      [[moduleA, moduleB], [moduleA], [moduleB, moduleA]]).map (fun x => moduleIds x.2) =
      some [0, 1] :=
  ⟨by decide,
    (RenderModulesSeq_ids_count_up Platform.lp64
      [[moduleA, moduleB], [moduleA], [moduleB, moduleA]] (by decide)).1,
    by decide⟩

/-- C3 (stable identifiers, append-only registry). From every state the
program can be in, a run of `RenderModules` calls on module lists whose build
ids fit the record completes; and whenever a run of calls completes, the
registry before it is a beginning of the registry after it: every record
keeps its position, hence its identifier, and its contents. -/
theorem RenderModulesSeq_registry_append_only (P : Platform)
    (statics : RenderModulesStatics) (hv : statics.Valid)
    (buffer : InternalScopedString) (calls : List (List LoadedModule)) :
    ((∀ modules ∈ calls, ∀ module ∈ modules, module.uuid_size ≤ P.kModuleUUIDSize) →
      ∃ result, RenderModulesSeq P statics buffer calls = some result) ∧
    (∀ (statics' : RenderModulesStatics) (buffer' : InternalScopedString),
      RenderModulesSeq P statics buffer calls = some (statics', buffer') →
      statics.renderedModules <+: statics'.renderedModules ∧
      ∀ (i : Nat) (r : RenderedModule),
        statics.renderedModules[i]? = some r → statics'.renderedModules[i]? = some r) := by
  constructor
  · intro hwf
    obtain ⟨statics', out, hrun, _⟩ := RenderModulesSeq_spec P calls statics hwf
    exact ⟨_, hrun buffer⟩
  · intro statics' buffer' h
    have hp := (RenderModulesSeq_grows P calls statics statics' buffer buffer' hv h).1
    refine ⟨hp, ?_⟩
    intro i r hi
    obtain ⟨t, ht⟩ := hp
    rw [← ht]
    have hlt : i < statics.renderedModules.length := by
      by_contra hge
      rw [List.getElem?_eq_none (Nat.le_of_not_lt hge)] at hi
      cases hi
    rw [List.getElem?_append_left hlt]
    exact hi

/-- A concrete instance of C3: after module A, rendering B, then A, then a
copy of A loaded at another base. -/
theorem RenderModulesSeq_registry_append_only_witness :
    staticsAfterA.Valid ∧
    (∀ (statics' : RenderModulesStatics) (buffer' : InternalScopedString),
      RenderModulesSeq Platform.lp64 staticsAfterA []
        [[moduleB], [moduleA], [moduleAReloaded]] = some (statics', buffer') →
      staticsAfterA.renderedModules <+: statics'.renderedModules ∧
      ∀ (i : Nat) (r : RenderedModule),
        staticsAfterA.renderedModules[i]? = some r →
        statics'.renderedModules[i]? = some r) ∧
    (RenderModulesSeq Platform.lp64 staticsAfterA []
      [[moduleB], [moduleA], [moduleAReloaded]]).map (fun x => x.1.renderedModules.length) =
      some 3 :=
  ⟨(fun h => by cases h),
    (RenderModulesSeq_registry_append_only Platform.lp64 staticsAfterA (fun h => by cases h) []
      [[moduleB], [moduleA], [moduleAReloaded]]).2,
    by decide⟩

/-- C4, as stated, fails: the record of module A (build id `aa aa`) is found
equal to a module with the same base address and name whose build id is the
proper prefix `aa`, and to one whose build id is empty, although the build
ids differ in length. -/
theorem ModulesEq_shorter_uuid_counterexample :
    ∃ r, recordModule Platform.lp64 moduleA = some r ∧
      ModulesEq moduleAShortUuid r = true ∧ ModulesEq moduleANoUuid r = true ∧
      moduleAShortUuid.uuid ≠ moduleA.uuid ∧ moduleANoUuid.uuid ≠ moduleA.uuid ∧
      ¬ (ModulesEq moduleAShortUuid r = true ↔
          moduleAShortUuid.base_address = moduleA.base_address ∧
          moduleAShortUuid.uuid = moduleA.uuid ∧
          moduleAShortUuid.full_name = moduleA.full_name) :=
  ⟨{ full_name := "a.so", uuid := [0xaa, 0xaa] ++ List.replicate 30 0, base_address := 0x1000 },
    by decide, by decide, by decide, by decide, by decide, by decide⟩

/-- C4, amended (module equality rule). For a loaded module `module` whose
build id fits the record and a record `r` made by `RenderModules` from a
loaded module `module₀`: `ModulesEq module r` holds exactly when the two
modules have the same base address and the same full name and the bytes of
`module`'s build id are the first `uuid_size` bytes of the stored build id,
which is `module₀`'s build id followed by zero bytes. When the two build ids
have the same length, this is equality of base address, build id and name. -/
theorem ModulesEq_record_iff (P : Platform) (module module₀ : LoadedModule)
    (r : RenderedModule) (hfit : module.uuid_size ≤ P.kModuleUUIDSize)
    (hr : recordModule P module₀ = some r) :
    (ModulesEq module r = true ↔
      module.base_address = module₀.base_address ∧
      module.uuid =
        (module₀.uuid ++ List.replicate (P.kModuleUUIDSize - module₀.uuid_size) 0).take
          module.uuid_size ∧
      module.full_name = module₀.full_name) ∧
    (module.uuid_size = module₀.uuid_size →
      (ModulesEq module r = true ↔
        module.base_address = module₀.base_address ∧
        module.uuid = module₀.uuid ∧
        module.full_name = module₀.full_name)) := by
  obtain ⟨hle, rfl⟩ := recordModule_eq_some P module₀ r hr
  have hlen : module.uuid_size ≤
      (module₀.uuid ++ List.replicate (P.kModuleUUIDSize - module₀.uuid_size) 0).length := by
    simp only [List.length_append, List.length_replicate, LoadedModule.uuid_size] at hle hfit ⊢
    omega
  have hmain := ModulesEq_iff module
    { full_name := module₀.full_name
      uuid := module₀.uuid ++ List.replicate (P.kModuleUUIDSize - module₀.uuid_size) 0
      base_address := module₀.base_address } hlen
  have hpre : ∀ l : List Nat, module.uuid <+: l ↔ module.uuid = l.take module.uuid_size := by
    intro l
    constructor
    · intro hp
      exact List.prefix_iff_eq_take.mp hp
    · intro he
      rw [he]
      exact List.take_prefix _ _
  constructor
  · rw [hmain, hpre]
  · intro hsame
    rw [hmain, hpre]
    have htake : (module₀.uuid ++
        List.replicate (P.kModuleUUIDSize - module₀.uuid_size) 0).take module.uuid_size =
        module₀.uuid := by
      rw [hsame]
      simp [LoadedModule.uuid_size]
    simp only [htake]

/-- A concrete instance of the amended C4: module A with a shortened build id
against the record of module A. -/
theorem ModulesEq_record_iff_witness :
    moduleAShortUuid.uuid_size ≤ Platform.lp64.kModuleUUIDSize ∧
    recordModule Platform.lp64 moduleA = some
      { full_name := "a.so", uuid := [0xaa, 0xaa] ++ List.replicate 30 0,
        base_address := 0x1000 } ∧
    ((ModulesEq moduleAShortUuid
        { full_name := "a.so", uuid := [0xaa, 0xaa] ++ List.replicate 30 0,
          base_address := 0x1000 } = true ↔
      moduleAShortUuid.base_address = moduleA.base_address ∧
      moduleAShortUuid.uuid =
        (moduleA.uuid ++ List.replicate (Platform.lp64.kModuleUUIDSize - moduleA.uuid_size) 0).take
          moduleAShortUuid.uuid_size ∧
      moduleAShortUuid.full_name = moduleA.full_name) ∧
    (moduleAShortUuid.uuid_size = moduleA.uuid_size →
      (ModulesEq moduleAShortUuid
          { full_name := "a.so", uuid := [0xaa, 0xaa] ++ List.replicate 30 0,
            base_address := 0x1000 } = true ↔
        moduleAShortUuid.base_address = moduleA.base_address ∧
        moduleAShortUuid.uuid = moduleA.uuid ∧
        moduleAShortUuid.full_name = moduleA.full_name))) :=
  ⟨by decide, by decide,
    ModulesEq_record_iff Platform.lp64 moduleAShortUuid moduleA _ (by decide) (by decide)⟩

theorem ModuleHasBeenRendered_initializedVector (module : LoadedModule)
    (statics : RenderModulesStatics)
    (h : ModuleHasBeenRendered module statics.renderedModules = false) :
    ModuleHasBeenRendered module (initializedVector statics) = false := by
  cases hi : statics.initialized with
  | true => simpa [initializedVector, hi] using h
  | false => simp [initializedVector, hi, ModuleHasBeenRendered]

theorem ModulesEq_of_base_ne (module : LoadedModule) (r : RenderedModule)
    (h : module.base_address ≠ r.base_address) : ModulesEq module r = false := by
  simp [ModulesEq, h]

/-- C5 (equality sensitivity to base address). Two loaded modules with the
same build id and the same full name but different base addresses, rendered
from any state whose registry contains neither: their records differ, and
both in one call and in two successive calls the two records are appended to
the registry and two module declarations are emitted, with the distinct
identifiers `n` and `n + 1`, `n` being the size of the registry before. -/
theorem RenderModules_distinct_base_both_registered (P : Platform)
    (statics : RenderModulesStatics) (buffer : InternalScopedString)
    (module₁ module₂ : LoadedModule)
    (huuid : module₁.uuid = module₂.uuid) (_hname : module₁.full_name = module₂.full_name)
    (hbase : module₁.base_address ≠ module₂.base_address)
    (hfit : module₁.uuid_size ≤ P.kModuleUUIDSize)
    (hnew₁ : ModuleHasBeenRendered module₁ statics.renderedModules = false)
    (hnew₂ : ModuleHasBeenRendered module₂ statics.renderedModules = false) :
    ∃ (r₁ r₂ : RenderedModule),
      recordModule P module₁ = some r₁ ∧ recordModule P module₂ = some r₂ ∧ r₁ ≠ r₂ ∧
      (∃ out, RenderModules P statics buffer [module₁, module₂] =
          some ({ initialized := true
                  renderedModules := initializedVector statics ++ [r₁, r₂] }, buffer ++ out) ∧
        moduleIds out =
          [(initializedVector statics).length, (initializedVector statics).length + 1]) ∧
      (∃ out₁, RenderModules P statics buffer [module₁] =
          some ({ initialized := true
                  renderedModules := initializedVector statics ++ [r₁] }, buffer ++ out₁) ∧
        moduleIds out₁ = [(initializedVector statics).length] ∧
        ∀ buffer', ∃ out₂,
          RenderModules P
            { initialized := true, renderedModules := initializedVector statics ++ [r₁] }
            buffer' [module₂] =
            some ({ initialized := true
                    renderedModules := initializedVector statics ++ [r₁, r₂] },
              buffer' ++ out₂) ∧
          moduleIds out₂ = [(initializedVector statics).length + 1]) := by
  have hfit₂ : module₂.uuid_size ≤ P.kModuleUUIDSize := by
    simpa [LoadedModule.uuid_size, ← huuid] using hfit
  have hr₁ := recordModule_of_le P module₁ hfit
  have hr₂ := recordModule_of_le P module₂ hfit₂
  generalize hd₁ : ({ full_name := module₁.full_name
                      uuid := module₁.uuid ++
                        List.replicate (P.kModuleUUIDSize - module₁.uuid_size) 0
                      base_address := module₁.base_address } : RenderedModule) = r₁ at hr₁
  generalize hd₂ : ({ full_name := module₂.full_name
                      uuid := module₂.uuid ++
                        List.replicate (P.kModuleUUIDSize - module₂.uuid_size) 0
                      base_address := module₂.base_address } : RenderedModule) = r₂ at hr₂
  have hb₁ : r₁.base_address = module₁.base_address := by rw [← hd₁]
  have hb₂ : r₂.base_address = module₂.base_address := by rw [← hd₂]
  have hne : r₁ ≠ r₂ := by
    intro he
    apply hbase
    rw [← hb₁, ← hb₂, he]
  have h₁ := ModuleHasBeenRendered_initializedVector module₁ statics hnew₁
  have h₂ := ModuleHasBeenRendered_initializedVector module₂ statics hnew₂
  have h₂' : ModuleHasBeenRendered module₂ (initializedVector statics ++ [r₁]) = false := by
    rw [ModuleHasBeenRendered_append, h₂]
    have := ModulesEq_of_base_ne module₂ r₁ (by rw [hb₁]; exact fun h => hbase h.symm)
    simp [ModuleHasBeenRendered, this]
  have hvec : initializedVector
      { initialized := true, renderedModules := initializedVector statics ++ [r₁] } =
      initializedVector statics ++ [r₁] := rfl
  have hreset : ∀ rs : List RenderedModule,
      moduleIds (if rs.length = 0 then [Piece.Append kResetMarker] else []) = [] := by
    intro rs
    split <;> simp [moduleIds, Piece.moduleId]
  refine ⟨r₁, r₂, hr₁, hr₂, hne, ?_, ?_⟩
  · refine ⟨(if (initializedVector statics).length = 0 then [Piece.Append kResetMarker] else [])
      ++ (moduleOutput P module₁ (initializedVector statics).length
      ++ moduleOutput P module₂ ((initializedVector statics).length + 1)), ?_, ?_⟩
    · rw [RenderModules_eq, renderLoop_cons_new P _ _ module₁ _ r₁ h₁ hr₁,
        renderLoop_cons_new P _ _ module₂ _ r₂ h₂' hr₂]
      simp [renderLoop]
    · rw [moduleIds_append, moduleIds_append, hreset, moduleIds_moduleOutput,
        moduleIds_moduleOutput]
      rfl
  · refine ⟨(if (initializedVector statics).length = 0 then [Piece.Append kResetMarker] else [])
      ++ moduleOutput P module₁ (initializedVector statics).length, ?_, ?_, ?_⟩
    · rw [RenderModules_eq, renderLoop_cons_new P _ _ module₁ _ r₁ h₁ hr₁]
      simp [renderLoop]
    · rw [moduleIds_append, hreset, moduleIds_moduleOutput]
      rfl
    · intro buffer'
      refine ⟨moduleOutput P module₂ ((initializedVector statics).length + 1), ?_, ?_⟩
      · rw [RenderModules_eq, hvec, renderLoop_cons_new P _ _ module₂ _ r₂ h₂' hr₂]
        simp [renderLoop]
      · rw [moduleIds_moduleOutput]

/-- A concrete instance of C5: module A and a copy of it loaded at another
base address, rendered from the statics of process start. -/
theorem RenderModules_distinct_base_both_registered_witness :
    moduleA.uuid = moduleAReloaded.uuid ∧ moduleA.full_name = moduleAReloaded.full_name ∧
    moduleA.base_address ≠ moduleAReloaded.base_address ∧
    (RenderModules Platform.lp64 RenderModulesStatics.initial [] [moduleA, moduleAReloaded]).map
      (fun x => (x.1.renderedModules.length, moduleIds x.2)) = some (2, [0, 1]) ∧
    ∃ (r₁ r₂ : RenderedModule),
      recordModule Platform.lp64 moduleA = some r₁ ∧
      recordModule Platform.lp64 moduleAReloaded = some r₂ ∧ r₁ ≠ r₂ ∧
      (∃ out, RenderModules Platform.lp64 RenderModulesStatics.initial []
          [moduleA, moduleAReloaded] =
          some ({ initialized := true
                  renderedModules :=
                    initializedVector RenderModulesStatics.initial ++ [r₁, r₂] }, [] ++ out) ∧
        moduleIds out =
          [(initializedVector RenderModulesStatics.initial).length,
            (initializedVector RenderModulesStatics.initial).length + 1]) ∧
      (∃ out₁, RenderModules Platform.lp64 RenderModulesStatics.initial [] [moduleA] =
          some ({ initialized := true
                  renderedModules := initializedVector RenderModulesStatics.initial ++ [r₁] },
            [] ++ out₁) ∧
        moduleIds out₁ = [(initializedVector RenderModulesStatics.initial).length] ∧
        ∀ buffer', ∃ out₂,
          RenderModules Platform.lp64
            { initialized := true
              renderedModules := initializedVector RenderModulesStatics.initial ++ [r₁] }
            buffer' [moduleAReloaded] =
            some ({ initialized := true
                    renderedModules :=
                      initializedVector RenderModulesStatics.initial ++ [r₁, r₂] },
              buffer' ++ out₂) ∧
          moduleIds out₂ = [(initializedVector RenderModulesStatics.initial).length + 1]) :=
  ⟨by decide, by decide, by decide, by decide,
    RenderModules_distinct_base_both_registered Platform.lp64 RenderModulesStatics.initial []
      moduleA moduleAReloaded (by decide) (by decide) (by decide) (by decide) (by decide)
      (by decide)⟩

theorem RenderModules_nil (P : Platform) (statics : RenderModulesStatics)
    (buffer : InternalScopedString) :
    RenderModules P statics buffer [] =
      some ({ initialized := true, renderedModules := initializedVector statics },
        buffer ++ (if (initializedVector statics).length = 0
          then [Piece.Append kResetMarker] else [])) := by
  rw [RenderModules_eq]
  simp [renderLoop]

theorem resetCount_resetMarker : resetCount [Piece.Append kResetMarker] = 1 := by
  simp [resetCount]

theorem RenderModulesSeq_no_reset (P : Platform) (calls : List (List LoadedModule)) :
    ∀ (statics : RenderModulesStatics), initializedVector statics ≠ [] →
      (∀ modules ∈ calls, ∀ module ∈ modules, module.uuid_size ≤ P.kModuleUUIDSize) →
      ∃ (statics' : RenderModulesStatics) (out : InternalScopedString),
        (∀ buffer, RenderModulesSeq P statics buffer calls = some (statics', buffer ++ out)) ∧
        resetCount out = 0 := by
  induction calls with
  | nil =>
    intro statics _ _
    exact ⟨statics, [], by simp [RenderModulesSeq], by simp [resetCount]⟩
  | cons modules calls ih =>
    intro statics hne hwf
    obtain ⟨news, out, hrun, _, _, hreset, _, _⟩ :=
      RenderModules_spec P statics modules (hwf modules (List.mem_cons_self _ _))
    have hlen : (initializedVector statics).length ≠ 0 :=
      fun h0 => hne (List.length_eq_zero.mp h0)
    have hne' : initializedVector
        { initialized := true, renderedModules := initializedVector statics ++ news } ≠ [] := by
      show initializedVector statics ++ news ≠ []
      simp [hne]
    obtain ⟨statics', out', hrun', hreset'⟩ :=
      ih _ hne' (fun ms hms => hwf ms (List.mem_cons_of_mem _ hms))
    refine ⟨statics', out ++ out', ?_, ?_⟩
    · intro buffer
      simp only [RenderModulesSeq, hrun, hrun', if_neg hlen]
      simp
    · rw [resetCount_append, hreset, hreset']

theorem RenderModulesSeq_reset_count (P : Platform) (calls : List (List LoadedModule)) :
    ∀ (statics : RenderModulesStatics), initializedVector statics = [] →
      (∀ modules ∈ calls, ∀ module ∈ modules, module.uuid_size ≤ P.kModuleUUIDSize) →
      ∃ (statics' : RenderModulesStatics) (out : InternalScopedString),
        (∀ buffer, RenderModulesSeq P statics buffer calls = some (statics', buffer ++ out)) ∧
        resetCount out = min calls.length ((calls.takeWhile List.isEmpty).length + 1) := by
  induction calls with
  | nil =>
    intro statics _ _
    exact ⟨statics, [], by simp [RenderModulesSeq], by simp [resetCount]⟩
  | cons modules calls ih =>
    intro statics hnil hwf
    have hwf' : ∀ ms ∈ calls, ∀ module ∈ ms, module.uuid_size ≤ P.kModuleUUIDSize :=
      fun ms hms => hwf ms (List.mem_cons_of_mem _ hms)
    cases modules with
    | nil =>
      have hvec : initializedVector
          { initialized := true, renderedModules := initializedVector statics } = [] := hnil
      obtain ⟨statics', out', hrun', hreset'⟩ := ih _ hvec hwf'
      refine ⟨statics', [Piece.Append kResetMarker] ++ out', ?_, ?_⟩
      · intro buffer
        simp only [RenderModulesSeq, RenderModules_nil]
        rw [hrun']
        simp [hnil]
      · rw [resetCount_append, resetCount_resetMarker, hreset']
        simp only [List.takeWhile_cons, List.isEmpty_nil, if_true, List.length_cons]
        omega
    | cons module modules =>
      obtain ⟨news, out, hrun, _, _, hreset, hnonempty, _⟩ :=
        RenderModules_spec P statics (module :: modules) (hwf _ (List.mem_cons_self _ _))
      have hne' : initializedVector
          { initialized := true, renderedModules := initializedVector statics ++ news } ≠ [] :=
        hnonempty (by simp)
      obtain ⟨statics', out', hrun', hreset'⟩ := RenderModulesSeq_no_reset P calls _ hne' hwf'
      refine ⟨statics', [Piece.Append kResetMarker] ++ out ++ out', ?_, ?_⟩
      · intro buffer
        simp only [RenderModulesSeq, hrun]
        rw [hrun']
        simp [hnil]
      · rw [resetCount_append, resetCount_append, resetCount_resetMarker, hreset, hreset']
        simp

/-- C6, as stated, fails: a call with an empty module list made on the empty
registry emits the reset marker, and in the run of calls `[]`, `[]`, `[A]`
from process start the marker is emitted three times. -/
theorem RenderModules_reset_on_empty_list_counterexample :
    RenderModules Platform.lp64 RenderModulesStatics.initial [] [] =
      some ({ initialized := true, renderedModules := [] }, [Piece.Append kResetMarker]) ∧
    (RenderModulesSeq Platform.lp64 RenderModulesStatics.initial [] [[], [], [moduleA]]).map
      (fun x => resetCount x.2) = some 3 :=
  ⟨by decide, by decide⟩

/-- C6, amended (reset marker). A call of `RenderModules` emits the reset
marker exactly when the registry is empty as the call starts, whatever the
module list, and then as the first thing it appends, before any module
declaration; what follows the marker contains no further marker. Hence over a
run of calls from process start the marker is emitted by the first call whose
module list is non-empty and by every call, with an empty list, made before
it, and by no call after it: the number of markers is the number of leading
empty-list calls plus one, or the number of calls when all lists are empty. -/
theorem RenderModules_reset_iff_registry_empty (P : Platform)
    (calls : List (List LoadedModule))
    (hwf : ∀ modules ∈ calls, ∀ module ∈ modules, module.uuid_size ≤ P.kModuleUUIDSize) :
    (∀ (statics : RenderModulesStatics), ∀ modules ∈ calls,
      ∃ (statics' : RenderModulesStatics) (out : InternalScopedString),
        (∀ buffer, RenderModules P statics buffer modules =
          some (statics', buffer ++
            ((if (initializedVector statics).length = 0 then [Piece.Append kResetMarker]
              else []) ++ out))) ∧
        resetCount out = 0 ∧
        (∀ piece, out.head? = some piece →
          ∃ id name, piece = Piece.AppendF kModuleFormat [Arg.num id, Arg.str name])) ∧
    (∃ (statics' : RenderModulesStatics) (out : InternalScopedString),
      (∀ buffer, RenderModulesSeq P RenderModulesStatics.initial buffer calls =
        some (statics', buffer ++ out)) ∧
      resetCount out = min calls.length ((calls.takeWhile List.isEmpty).length + 1)) := by
  constructor
  · intro statics modules hm
    obtain ⟨news, out, hrun, _, _, hreset, _, hhead⟩ :=
      RenderModules_spec P statics modules (hwf modules hm)
    exact ⟨_, out, hrun, hreset, hhead⟩
  · exact RenderModulesSeq_reset_count P calls RenderModulesStatics.initial rfl hwf

/-- A concrete instance of the amended C6: two calls with an empty list, then
scenario A, then module A again. -/
theorem RenderModules_reset_iff_registry_empty_witness :
    (∀ modules ∈ [[], [], [moduleA, moduleB], [moduleA]],
      ∀ module ∈ modules, module.uuid_size ≤ Platform.lp64.kModuleUUIDSize) ∧
    (∃ (statics' : RenderModulesStatics) (out : InternalScopedString),
      (∀ buffer, RenderModulesSeq Platform.lp64 RenderModulesStatics.initial buffer
        [[], [], [moduleA, moduleB], [moduleA]] = some (statics', buffer ++ out)) ∧
      resetCount out = min [[], [], [moduleA, moduleB], [moduleA]].length
        (([[], [], [moduleA, moduleB], [moduleA]].takeWhile List.isEmpty).length + 1)) ∧
    (RenderModulesSeq Platform.lp64 RenderModulesStatics.initial []
      [[], [], [moduleA, moduleB], [moduleA]]).map (fun x => resetCount x.2) = some 3 :=
  ⟨by decide,
    (RenderModules_reset_iff_registry_empty Platform.lp64
      [[], [], [moduleA, moduleB], [moduleA]] (by decide)).2,
    by decide⟩

theorem text_append (P : Platform) (b₁ b₂ : InternalScopedString) :
    InternalScopedString.text P (b₁ ++ b₂) =
      InternalScopedString.text P b₁ ++ InternalScopedString.text P b₂ := by
  simp [InternalScopedString.text]

theorem text_singleton (P : Platform) (piece : Piece) :
    InternalScopedString.text P [piece] = Piece.text P piece := by
  simp [InternalScopedString.text]

theorem text_mmap_head (P : Platform) (beg len id : Nat) :
    Piece.text P (Piece.AppendF kMmapFormat [Arg.num beg, Arg.num len, Arg.num id]) =
      "\x7b\x7b\x7bmmap".data ++ ':' :: AppendPointer P beg ++ ':' :: AppendPointer P len
        ++ ':' :: "load".data ++ ':' :: AppendUnsigned id 10 0 false ++ [':', 'r'] := by
  simp [Piece.text, kMmapFormat, VSNPrintf]

theorem text_mmap_tail (P : Platform) (off : Nat) :
    Piece.text P (Piece.AppendF kMmapTailFormat [Arg.num off]) =
      ':' :: AppendPointer P off ++ "\x7d\x7d\x7d\n".data := by
  simp [Piece.text, kMmapTailFormat, VSNPrintf]

theorem text_module_head (P : Platform) (id : Nat) (name : String) :
    Piece.text P (Piece.AppendF kModuleFormat [Arg.num id, Arg.str name]) =
      "\x7b\x7b\x7bmodule:".data ++ AppendUnsigned id 10 0 false ++ ':' :: name.data
        ++ ":elf:".data := by
  simp [Piece.text, kModuleFormat, VSNPrintf]

theorem text_uuid_byte (P : Platform) (byte : Nat) :
    Piece.text P (Piece.AppendF kUuidByteFormat [Arg.num byte]) =
      AppendUnsigned byte 16 2 true := by
  simp [Piece.text, kUuidByteFormat, VSNPrintf]

theorem digitChar_ne_colon (d : Nat) (h : d < 36) : Nat.digitChar d ≠ ':' := by
  interval_cases d <;> decide

theorem toDigitsCore_no_colon (base : Nat) (hb : 0 < base) (hb' : base ≤ 36) :
    ∀ (fuel n : Nat) (ds : List Char), ':' ∉ ds → ':' ∉ Nat.toDigitsCore base fuel n ds := by
  intro fuel
  induction fuel with
  | zero => intro n ds h; simpa [Nat.toDigitsCore] using h
  | succ fuel ih =>
    intro n ds h
    have hlt : n % base < 36 := lt_of_lt_of_le (Nat.mod_lt n hb) hb'
    have hcons : ':' ∉ Nat.digitChar (n % base) :: ds := by
      intro hm
      rcases List.mem_cons.mp hm with he | hm
      · exact digitChar_ne_colon _ hlt he.symm
      · exact h hm
    simp only [Nat.toDigitsCore]
    split
    · exact hcons
    · exact ih _ _ hcons

theorem AppendUnsigned_no_colon (num base width : Nat) (pad : Bool)
    (hb : 0 < base) (hb' : base ≤ 36) :
    ':' ∉ AppendUnsigned num base width pad := by
  have h1 : ':' ∉ Nat.toDigits base num := toDigitsCore_no_colon base hb hb' _ _ [] (by simp)
  have h2 : (':' : Char) ≠ (if pad then '0' else ' ') := by cases pad <;> decide
  simp only [AppendUnsigned, List.mem_append, not_or]
  refine ⟨?_, h1⟩
  intro hm
  exact h2 (List.eq_of_mem_replicate hm)

theorem AppendPointer_no_colon (P : Platform) (v : Nat) : ':' ∉ AppendPointer P v := by
  have h := AppendUnsigned_no_colon v 16 P.SANITIZER_POINTER_FORMAT_LENGTH true
    (by decide) (by decide)
  simp only [AppendPointer, List.mem_append, not_or]
  exact ⟨by decide, h⟩

theorem markupFields_field (field rest : List Char) (h : ':' ∉ field) :
    markupFields (field ++ ':' :: rest) = field :: markupFields rest := by
  induction field with
  | nil => simp [markupFields]
  | cons c field ih =>
    have hc : c ≠ ':' := fun he => h (by simp [he])
    have hf : ':' ∉ field := fun hm => h (List.mem_cons_of_mem _ hm)
    simp [markupFields, hc, ih hf]

/-- The text of a mapping declaration, and its permission field. -/
theorem permissionField_mappingDeclaration (P : Platform) (module : LoadedModule) (id : Nat)
    (range : AddressRange) :
    InternalScopedString.text P (mappingDeclaration P module id range) =
      "\x7b\x7b\x7bmmap".data ++ ':' :: (AppendPointer P range.beg
        ++ ':' :: (AppendPointer P (uptr_sub P range.end range.beg)
        ++ ':' :: ("load".data ++ ':' :: (AppendUnsigned id 10 0 false
        ++ ':' :: (('r' :: ((if range.writable then ['w'] else [])
            ++ (if range.executable then ['x'] else [])))
        ++ ':' :: (AppendPointer P (uptr_sub P range.beg module.base_address)
        ++ "\x7d\x7d\x7d\n".data)))))) ∧
    permissionField (InternalScopedString.text P (mappingDeclaration P module id range)) =
      'r' :: ((if range.writable then ['w'] else [])
        ++ (if range.executable then ['x'] else [])) := by
  have htext : InternalScopedString.text P (mappingDeclaration P module id range) =
      "\x7b\x7b\x7bmmap".data ++ ':' :: (AppendPointer P range.beg
        ++ ':' :: (AppendPointer P (uptr_sub P range.end range.beg)
        ++ ':' :: ("load".data ++ ':' :: (AppendUnsigned id 10 0 false
        ++ ':' :: (('r' :: ((if range.writable then ['w'] else [])
            ++ (if range.executable then ['x'] else [])))
        ++ ':' :: (AppendPointer P (uptr_sub P range.beg module.base_address)
        ++ "\x7d\x7d\x7d\n".data)))))) := by
    simp only [mappingDeclaration, text_append, text_singleton, text_mmap_head, text_mmap_tail]
    cases range.writable <;> cases range.executable <;>
      simp [InternalScopedString.text, Piece.text]
  refine ⟨htext, ?_⟩
  rw [htext]
  have hflags : ':' ∉ 'r' :: ((if range.writable then ['w'] else [])
      ++ (if range.executable then ['x'] else [])) := by
    cases range.writable <;> cases range.executable <;> decide
  rw [permissionField,
    markupFields_field _ _ (by decide : ':' ∉ "\x7b\x7b\x7bmmap".data),
    markupFields_field _ _ (AppendPointer_no_colon P _),
    markupFields_field _ _ (AppendPointer_no_colon P _),
    markupFields_field _ _ (by decide : ':' ∉ "load".data),
    markupFields_field _ _ (AppendUnsigned_no_colon _ _ _ _ (by decide) (by decide)),
    markupFields_field _ _ hflags]
  rfl

theorem uptr_sub_of_le (P : Platform) (a b : Nat) (hba : b ≤ a) (ha : a < 2 ^ P.wordBits) :
    uptr_sub P a b = a - b := by
  have hb : b % 2 ^ P.wordBits = b := Nat.mod_eq_of_lt (lt_of_le_of_lt hba ha)
  have h1 : a + (2 ^ P.wordBits - b) = (a - b) + 2 ^ P.wordBits := by omega
  rw [uptr_sub, hb, h1, Nat.add_mod_right]
  exact Nat.mod_eq_of_lt (by omega)

theorem uptr_sub_int (P : Platform) (a b : Nat) :
    ((uptr_sub P a b : Nat) : Int) = ((a : Int) - (b : Int)) % (2 : Int) ^ P.wordBits := by
  have hpos : 0 < 2 ^ P.wordBits := Nat.pow_pos (by decide)
  have hlt : b % 2 ^ P.wordBits < 2 ^ P.wordBits := Nat.mod_lt _ hpos
  have hdiv := Nat.div_add_mod b (2 ^ P.wordBits)
  have hcast : ((a + (2 ^ P.wordBits - b % 2 ^ P.wordBits) : Nat) : Int) =
      ((a : Int) - (b : Int)) + ((2 ^ P.wordBits : Nat) : Int) * (1 + (b / 2 ^ P.wordBits : Nat)) := by
    have h2 : ((2 ^ P.wordBits - b % 2 ^ P.wordBits : Nat) : Int) =
        ((2 ^ P.wordBits : Nat) : Int) - ((b % 2 ^ P.wordBits : Nat) : Int) :=
      Int.ofNat_sub (le_of_lt hlt)
    have h3 : ((b : Nat) : Int) = ((2 ^ P.wordBits : Nat) : Int) * ((b / 2 ^ P.wordBits : Nat) : Int)
        + ((b % 2 ^ P.wordBits : Nat) : Int) := by
      exact_mod_cast hdiv.symm
    rw [Nat.cast_add, h2]
    linarith [h3]
  rw [uptr_sub, Int.natCast_mod, hcast, Int.add_mul_emod_self_left]
  norm_cast

/-- C7, as stated, fails: for a range that is neither writable nor executable
the permission field of the mapping declaration is `r`, not empty. -/
theorem permissionField_read_only_counterexample :
    (RenderModules Platform.lp64 RenderModulesStatics.initial [] [moduleReadOnly]).map
      (fun x => x.2) =
      some ([Piece.Append kResetMarker] ++ moduleDeclaration moduleReadOnly 0
        ++ mappingDeclaration Platform.lp64 moduleReadOnly 0 rangeReadOnly) ∧
    permissionField (InternalScopedString.text Platform.lp64
      (mappingDeclaration Platform.lp64 moduleReadOnly 0 rangeReadOnly)) = ['r'] ∧
    permissionField (InternalScopedString.text Platform.lp64
      (mappingDeclaration Platform.lp64 moduleReadOnly 0 rangeReadOnly)) ≠
      (if rangeReadOnly.writable then ['w'] else [])
        ++ (if rangeReadOnly.executable then ['x'] else []) :=
  ⟨by decide, by decide, by decide⟩

/-- C7, amended (permission string of a mapping declaration). For every
module that the loop of `RenderModules` reaches while it is not registered,
the call appends the module declaration and then one mapping declaration per
range; the permission field of each of these consists of the read marker `r`,
always present, followed by `w` if the range is writable, followed by `x` if
the range is executable, and nothing else. For a range that is neither
writable nor executable the field is `r`. -/
theorem RenderModules_permission_field (P : Platform)
    (statics statics₁ : RenderModulesStatics) (buffer buffer₁ : InternalScopedString)
    (before : List LoadedModule) (module : LoadedModule) (after : List LoadedModule)
    (hwf : ∀ m ∈ module :: after, m.uuid_size ≤ P.kModuleUUIDSize)
    (h1 : RenderModules P statics buffer before = some (statics₁, buffer₁))
    (hnew : ModuleHasBeenRendered module statics₁.renderedModules = false) :
    ∃ (statics₂ : RenderModulesStatics) (rest : InternalScopedString),
      RenderModules P statics buffer (before ++ module :: after) =
        some (statics₂, buffer₁ ++ (moduleDeclaration module statics₁.renderedModules.length
          ++ module.ranges.flatMap
              (mappingDeclaration P module statics₁.renderedModules.length)
          ++ rest)) ∧
      ∀ range ∈ module.ranges,
        permissionField (InternalScopedString.text P
          (mappingDeclaration P module statics₁.renderedModules.length range)) =
          'r' :: ((if range.writable then ['w'] else [])
            ++ (if range.executable then ['x'] else [])) ∧
        (range.writable = false → range.executable = false →
          permissionField (InternalScopedString.text P
            (mappingDeclaration P module statics₁.renderedModules.length range)) = ['r']) := by
  obtain ⟨r, news, rest, _, hrun, _⟩ :=
    RenderModules_new_module P statics statics₁ buffer buffer₁ before module after hwf h1 hnew
  refine ⟨{ initialized := true, renderedModules := statics₁.renderedModules ++ r :: news },
    rest, ?_, ?_⟩
  · rw [hrun, moduleOutput]
  · intro range _
    have h := (permissionField_mappingDeclaration P module
      statics₁.renderedModules.length range).2
    refine ⟨h, ?_⟩
    intro hw hx
    rw [h, hw, hx]
    rfl

/-- A concrete instance of the amended C7: the module with a read-only range,
rendered from process start. -/
theorem RenderModules_permission_field_witness :
    (∀ m ∈ [moduleReadOnly], m.uuid_size ≤ Platform.lp64.kModuleUUIDSize) ∧
    RenderModules Platform.lp64 RenderModulesStatics.initial [] [] =
      some ({ initialized := true, renderedModules := [] }, [Piece.Append kResetMarker]) ∧
    ModuleHasBeenRendered moduleReadOnly [] = false ∧
    ∃ (statics₂ : RenderModulesStatics) (rest : InternalScopedString),
      RenderModules Platform.lp64 RenderModulesStatics.initial [] ([] ++ [moduleReadOnly]) =
        some (statics₂, [Piece.Append kResetMarker] ++ (moduleDeclaration moduleReadOnly 0
          ++ moduleReadOnly.ranges.flatMap (mappingDeclaration Platform.lp64 moduleReadOnly 0)
          ++ rest)) ∧
      ∀ range ∈ moduleReadOnly.ranges,
        permissionField (InternalScopedString.text Platform.lp64
          (mappingDeclaration Platform.lp64 moduleReadOnly 0 range)) =
          'r' :: ((if range.writable then ['w'] else [])
            ++ (if range.executable then ['x'] else [])) ∧
        (range.writable = false → range.executable = false →
          permissionField (InternalScopedString.text Platform.lp64
            (mappingDeclaration Platform.lp64 moduleReadOnly 0 range)) = ['r']) :=
  ⟨by decide, by decide, by decide,
    RenderModules_permission_field Platform.lp64 RenderModulesStatics.initial
      { initialized := true, renderedModules := [] } [] [Piece.Append kResetMarker]
      [] moduleReadOnly [] (by decide) (by decide) (by decide)⟩

/-- C8 (mapping declaration fields). For every module that the loop of
`RenderModules` reaches while it is not registered, the call appends the
module declaration, carrying as id the size `n` of the registry at that
moment, immediately followed by exactly one mapping declaration per memory
range, in range order; what comes next, if anything, is the opening of
another module declaration. Each mapping declaration carries
start `range.beg`, length `range.end - range.beg`, the load id `n`, and the
relative offset `range.beg - base_address`, both differences being taken
modulo `2 ^ wordBits`; such a difference is the plain difference when it does
not wrap. -/
theorem RenderModules_mapping_fields (P : Platform)
    (statics statics₁ : RenderModulesStatics) (buffer buffer₁ : InternalScopedString)
    (before : List LoadedModule) (module : LoadedModule) (after : List LoadedModule)
    (hwf : ∀ m ∈ module :: after, m.uuid_size ≤ P.kModuleUUIDSize)
    (h1 : RenderModules P statics buffer before = some (statics₁, buffer₁))
    (hnew : ModuleHasBeenRendered module statics₁.renderedModules = false) :
    (∃ (statics₂ : RenderModulesStatics) (rest : InternalScopedString),
      RenderModules P statics buffer (before ++ module :: after) =
        some (statics₂, buffer₁ ++
          ([Piece.AppendF kModuleFormat
              [Arg.num statics₁.renderedModules.length, Arg.str module.full_name]]
            ++ module.uuid.map (fun byte => Piece.AppendF kUuidByteFormat [Arg.num byte])
            ++ [Piece.Append kElementEnd]
            ++ module.ranges.flatMap (fun range =>
                [Piece.AppendF kMmapFormat
                    [Arg.num range.beg, Arg.num (uptr_sub P range.end range.beg),
                      Arg.num statics₁.renderedModules.length]]
                  ++ (if range.writable then [Piece.Append "w"] else [])
                  ++ (if range.executable then [Piece.Append "x"] else [])
                  ++ [Piece.AppendF kMmapTailFormat
                      [Arg.num (uptr_sub P range.beg module.base_address)]])
            ++ rest)) ∧
      (∀ piece, rest.head? = some piece →
        ∃ id name, piece = Piece.AppendF kModuleFormat [Arg.num id, Arg.str name])) ∧
    (∀ a b : Nat,
      ((uptr_sub P a b : Nat) : Int) = ((a : Int) - (b : Int)) % (2 : Int) ^ P.wordBits ∧
      (b ≤ a → a < 2 ^ P.wordBits → uptr_sub P a b = a - b)) := by
  constructor
  · obtain ⟨r, news, rest, _, hrun, hhead⟩ :=
      RenderModules_new_module P statics statics₁ buffer buffer₁ before module after hwf h1 hnew
    refine ⟨{ initialized := true, renderedModules := statics₁.renderedModules ++ r :: news },
      rest, ?_, hhead⟩
    rw [hrun]
    rfl
  · intro a b
    exact ⟨uptr_sub_int P a b, uptr_sub_of_le P a b⟩

/-- A concrete instance of C8, scenario A: module A, base 0x1000 and range
0x1000 to 0x2000, gets start 0x1000, length 0x1000, id 0 and offset 0. -/
theorem RenderModules_mapping_fields_witness :
    (∀ m ∈ moduleA :: [moduleB], m.uuid_size ≤ Platform.lp64.kModuleUUIDSize) ∧
    RenderModules Platform.lp64 RenderModulesStatics.initial [] [] =
      some ({ initialized := true, renderedModules := [] }, [Piece.Append kResetMarker]) ∧
    ModuleHasBeenRendered moduleA [] = false ∧
    (∃ (statics₂ : RenderModulesStatics) (rest : InternalScopedString),
      RenderModules Platform.lp64 RenderModulesStatics.initial [] ([] ++ moduleA :: [moduleB]) =
        some (statics₂, [Piece.Append kResetMarker] ++
          ([Piece.AppendF kModuleFormat [Arg.num 0, Arg.str moduleA.full_name]]
            ++ moduleA.uuid.map (fun byte => Piece.AppendF kUuidByteFormat [Arg.num byte])
            ++ [Piece.Append kElementEnd]
            ++ moduleA.ranges.flatMap (fun range =>
                [Piece.AppendF kMmapFormat
                    [Arg.num range.beg, Arg.num (uptr_sub Platform.lp64 range.end range.beg),
                      Arg.num 0]]
                  ++ (if range.writable then [Piece.Append "w"] else [])
                  ++ (if range.executable then [Piece.Append "x"] else [])
                  ++ [Piece.AppendF kMmapTailFormat
                      [Arg.num (uptr_sub Platform.lp64 range.beg moduleA.base_address)]])
            ++ rest)) ∧
      (∀ piece, rest.head? = some piece →
        ∃ id name, piece = Piece.AppendF kModuleFormat [Arg.num id, Arg.str name])) ∧
    (RenderModules Platform.lp64 RenderModulesStatics.initial [] [moduleA, moduleB]).map
      (fun x => x.2.take 8) =
      some [Piece.Append kResetMarker,
        Piece.AppendF kModuleFormat [Arg.num 0, Arg.str "a.so"],
        Piece.AppendF kUuidByteFormat [Arg.num 0xaa],
        Piece.AppendF kUuidByteFormat [Arg.num 0xaa],
        Piece.Append kElementEnd,
        Piece.AppendF kMmapFormat [Arg.num 0x1000, Arg.num 0x1000, Arg.num 0],
        Piece.Append "x",
        Piece.AppendF kMmapTailFormat [Arg.num 0]] :=
  ⟨by decide, by decide, by decide,
    (RenderModules_mapping_fields Platform.lp64 RenderModulesStatics.initial
      { initialized := true, renderedModules := [] } [] [Piece.Append kResetMarker]
      [] moduleA [moduleB] (by decide) (by decide) (by decide)).1,
    by decide⟩

theorem AppendUnsigned_byte (byte : Nat) (h : byte < 256) :
    AppendUnsigned byte 16 2 true = [lowerHexDigit (byte / 16), lowerHexDigit (byte % 16)] := by
  interval_cases byte <;> rfl

theorem text_uuid_pieces (P : Platform) (uuid : List Nat) (h : ∀ byte ∈ uuid, byte < 256) :
    InternalScopedString.text P
      (uuid.map (fun byte => Piece.AppendF kUuidByteFormat [Arg.num byte])) =
      hexOfBytes uuid := by
  induction uuid with
  | nil => rfl
  | cons byte uuid ih =>
    have hb := h byte (List.mem_cons_self _ _)
    have ih' := ih (fun b hb => h b (List.mem_cons_of_mem _ hb))
    simp only [InternalScopedString.text] at ih'
    simp only [InternalScopedString.text, List.map_cons, List.flatten_cons, text_uuid_byte,
      AppendUnsigned_byte byte hb, ih', hexOfBytes, List.flatMap_cons]

theorem hexOfBytes_length (bytes : List Nat) : (hexOfBytes bytes).length = 2 * bytes.length := by
  induction bytes with
  | nil => rfl
  | cons byte bytes ih =>
    simp only [hexOfBytes, List.flatMap_cons] at ih ⊢
    simp only [List.length_append, List.length_cons, List.length_nil, ih]
    omega

theorem hexOfBytes_digits (bytes : List Nat) :
    ∀ (i : Nat) (byte : Nat), bytes[i]? = some byte →
      (hexOfBytes bytes)[2 * i]? = some (lowerHexDigit (byte / 16)) ∧
      (hexOfBytes bytes)[2 * i + 1]? = some (lowerHexDigit (byte % 16)) := by
  induction bytes with
  | nil => intro i byte h; simp at h
  | cons b bytes ih =>
    intro i byte h
    have hcons : hexOfBytes (b :: bytes) =
        lowerHexDigit (b / 16) :: lowerHexDigit (b % 16) :: hexOfBytes bytes := by
      simp [hexOfBytes, List.flatMap_cons]
    rw [hcons]
    cases i with
    | zero =>
      simp only [List.getElem?_cons_zero, Option.some.injEq] at h
      subst h
      exact ⟨by simp, by simp⟩
    | succ i =>
      simp only [List.getElem?_cons_succ] at h
      have h2 : 2 * (i + 1) = 2 * i + 1 + 1 := by ring
      have h3 : 2 * (i + 1) + 1 = (2 * i + 1) + 1 + 1 := by ring
      rw [h3, h2]
      simp only [List.getElem?_cons_succ]
      exact ih i byte h

/-- C9 (build-id hex rendering). For every module that the loop of
`RenderModules` reaches while it is not registered, with build-id bytes
`b_0 .. b_(n-1)` (`n = uuid_size <= kModuleUUIDSize`, every byte below 256),
the call appends a module declaration whose text is the opening with id and
name, then the build-id field, then the closing braces; the build-id field is
the string of `2 * n` characters whose characters `2 * i` and `2 * i + 1` are
the lowercase hexadecimal digits of the high and low nibble of `b_i`, in byte
order, with nothing between them. -/
theorem RenderModules_build_id_hex (P : Platform)
    (statics statics₁ : RenderModulesStatics) (buffer buffer₁ : InternalScopedString)
    (before : List LoadedModule) (module : LoadedModule) (after : List LoadedModule)
    (hwf : ∀ m ∈ module :: after, m.uuid_size ≤ P.kModuleUUIDSize)
    (hbytes : ∀ byte ∈ module.uuid, byte < 256)
    (h1 : RenderModules P statics buffer before = some (statics₁, buffer₁))
    (hnew : ModuleHasBeenRendered module statics₁.renderedModules = false) :
    ∃ (statics₂ : RenderModulesStatics) (declaration rest : InternalScopedString),
      RenderModules P statics buffer (before ++ module :: after) =
        some (statics₂, buffer₁ ++ (declaration ++ rest)) ∧
      InternalScopedString.text P declaration =
        "\x7b\x7b\x7bmodule:".data ++ AppendUnsigned statics₁.renderedModules.length 10 0 false
          ++ ':' :: module.full_name.data ++ ":elf:".data
          ++ hexOfBytes module.uuid ++ "\x7d\x7d\x7d\n".data ∧
      (hexOfBytes module.uuid).length = 2 * module.uuid_size ∧
      ∀ (i : Nat) (byte : Nat), module.uuid[i]? = some byte →
        (hexOfBytes module.uuid)[2 * i]? = some (lowerHexDigit (byte / 16)) ∧
        (hexOfBytes module.uuid)[2 * i + 1]? = some (lowerHexDigit (byte % 16)) := by
  obtain ⟨r, news, rest, _, hrun, _⟩ :=
    RenderModules_new_module P statics statics₁ buffer buffer₁ before module after hwf h1 hnew
  refine ⟨{ initialized := true, renderedModules := statics₁.renderedModules ++ r :: news },
    moduleDeclaration module statics₁.renderedModules.length,
    module.ranges.flatMap (mappingDeclaration P module statics₁.renderedModules.length) ++ rest,
    ?_, ?_, hexOfBytes_length module.uuid, hexOfBytes_digits module.uuid⟩
  · rw [hrun, moduleOutput, List.append_assoc]
  · rw [moduleDeclaration, text_append, text_append, text_singleton, text_singleton,
      text_module_head, text_uuid_pieces P module.uuid hbytes]
    rfl

/-- A concrete instance of C9: module A, build id `aa aa`, renders as `aaaa`;
the bytes `0x0f 0x80 0xff` render as `0f80ff`. -/
theorem RenderModules_build_id_hex_witness :
    (∀ m ∈ moduleA :: [moduleB], m.uuid_size ≤ Platform.lp64.kModuleUUIDSize) ∧
    (∀ byte ∈ moduleA.uuid, byte < 256) ∧
    RenderModules Platform.lp64 RenderModulesStatics.initial [] [] =
      some ({ initialized := true, renderedModules := [] }, [Piece.Append kResetMarker]) ∧
    ModuleHasBeenRendered moduleA [] = false ∧
    (∃ (statics₂ : RenderModulesStatics) (declaration rest : InternalScopedString),
      RenderModules Platform.lp64 RenderModulesStatics.initial [] ([] ++ moduleA :: [moduleB]) =
        some (statics₂, [Piece.Append kResetMarker] ++ (declaration ++ rest)) ∧
      InternalScopedString.text Platform.lp64 declaration =
        "\x7b\x7b\x7bmodule:".data ++ AppendUnsigned 0 10 0 false
          ++ ':' :: moduleA.full_name.data ++ ":elf:".data
          ++ hexOfBytes moduleA.uuid ++ "\x7d\x7d\x7d\n".data ∧
      (hexOfBytes moduleA.uuid).length = 2 * moduleA.uuid_size ∧
      ∀ (i : Nat) (byte : Nat), moduleA.uuid[i]? = some byte →
        (hexOfBytes moduleA.uuid)[2 * i]? = some (lowerHexDigit (byte / 16)) ∧
        (hexOfBytes moduleA.uuid)[2 * i + 1]? = some (lowerHexDigit (byte % 16))) ∧
    InternalScopedString.text Platform.lp64 (moduleDeclaration moduleA 0) =
      "\x7b\x7b\x7bmodule:0:a.so:elf:aaaa\x7d\x7d\x7d\n".data ∧
    hexOfBytes [0x0f, 0x80, 0xff] = "0f80ff".data :=
  ⟨by decide, by decide, by decide, by decide,
    RenderModules_build_id_hex Platform.lp64 RenderModulesStatics.initial
      { initialized := true, renderedModules := [] } [] [Piece.Append kResetMarker]
      [] moduleA [moduleB] (by decide) (by decide) (by decide) (by decide),
    by decide, by decide⟩

/-! ## Properties of `UnwindSlow` -/

theorem Unwind_Trace_guard (P : Platform) (ip : Nat) (arg : UnwindTraceArg)
    (hlt : arg.stack.size < arg.max_depth) (hpage : ip < P.PAGE_SIZE) :
    Unwind_Trace P ip arg = some (_Unwind_Reason_Code._URC_NORMAL_STOP, arg) := by
  simp [Unwind_Trace, hlt, hpage]

theorem Unwind_Trace_last (P : Platform) (ip : Nat) (arg : UnwindTraceArg)
    (hlt : arg.stack.size < arg.max_depth) (hpage : ¬ ip < P.PAGE_SIZE)
    (hfull : arg.stack.size + 1 = arg.max_depth) :
    Unwind_Trace P ip arg = some (_Unwind_Reason_Code._URC_NORMAL_STOP,
      { arg with stack := { trace_buffer := arg.stack.trace_buffer ++ [ip] } }) := by
  simp only [BufferedStackTrace.size] at hlt hfull
  simp [Unwind_Trace, BufferedStackTrace.size, hlt, hpage, hfull]

theorem Unwind_Trace_more (P : Platform) (ip : Nat) (arg : UnwindTraceArg)
    (hlt : arg.stack.size < arg.max_depth) (hpage : ¬ ip < P.PAGE_SIZE)
    (hfull : arg.stack.size + 1 ≠ arg.max_depth) :
    Unwind_Trace P ip arg = some (_Unwind_Reason_Code._URC_NO_REASON,
      { arg with stack := { trace_buffer := arg.stack.trace_buffer ++ [ip] } }) := by
  simp only [BufferedStackTrace.size] at hlt hfull
  simp [Unwind_Trace, BufferedStackTrace.size, hlt, hpage, hfull]

theorem Unwind_Trace_check_fails (P : Platform) (ip : Nat) (arg : UnwindTraceArg)
    (hlt : ¬ arg.stack.size < arg.max_depth) : Unwind_Trace P ip arg = none := by
  simp [Unwind_Trace, hlt]

/-- The collecting phase keeps `max_depth`, never exceeds it, and only adds
entries at the end of the buffer. -/
theorem Unwind_Backtrace_bounds (P : Platform) (walker : List Nat) :
    ∀ (arg arg' : UnwindTraceArg), arg.stack.size ≤ arg.max_depth →
      _Unwind_Backtrace (Unwind_Trace P) walker arg = some arg' →
      arg'.max_depth = arg.max_depth ∧ arg'.stack.size ≤ arg.max_depth ∧
        arg.stack.trace_buffer <+: arg'.stack.trace_buffer := by
  induction walker with
  | nil =>
    intro arg arg' hle h
    simp only [_Unwind_Backtrace, Option.some.injEq] at h
    subst h
    exact ⟨rfl, hle, List.prefix_refl _⟩
  | cons ip walker ih =>
    intro arg arg' hle h
    by_cases hlt : arg.stack.size < arg.max_depth
    · by_cases hpage : ip < P.PAGE_SIZE
      · simp only [_Unwind_Backtrace, Unwind_Trace_guard P ip arg hlt hpage,
          Option.some.injEq] at h
        subst h
        exact ⟨rfl, hle, List.prefix_refl _⟩
      · by_cases hfull : arg.stack.size + 1 = arg.max_depth
        · simp only [_Unwind_Backtrace, Unwind_Trace_last P ip arg hlt hpage hfull,
            Option.some.injEq] at h
          subst h
          refine ⟨rfl, ?_, List.prefix_append _ _⟩
          simp only [BufferedStackTrace.size, List.length_append, List.length_singleton]
          simp only [BufferedStackTrace.size] at hfull
          omega
        · simp only [_Unwind_Backtrace, Unwind_Trace_more P ip arg hlt hpage hfull] at h
          have hle' : ({ arg with stack :=
              { trace_buffer := arg.stack.trace_buffer ++ [ip] } } : UnwindTraceArg).stack.size ≤
              ({ arg with stack :=
                { trace_buffer := arg.stack.trace_buffer ++ [ip] } } : UnwindTraceArg).max_depth := by
            simp only [BufferedStackTrace.size, List.length_append, List.length_singleton]
            simp only [BufferedStackTrace.size] at hfull hlt
            omega
          obtain ⟨hmax, hsize, hpre⟩ := ih _ arg' hle' h
          exact ⟨hmax, hsize, (List.prefix_append _ _).trans hpre⟩
    · simp [_Unwind_Backtrace, Unwind_Trace_check_fails P ip arg hlt] at h

/-- The collecting phase completes when it starts below `max_depth`. -/
theorem Unwind_Backtrace_total (P : Platform) (walker : List Nat) :
    ∀ (arg : UnwindTraceArg), arg.stack.size < arg.max_depth →
      ∃ arg', _Unwind_Backtrace (Unwind_Trace P) walker arg = some arg' := by
  induction walker with
  | nil => intro arg _; exact ⟨arg, rfl⟩
  | cons ip walker ih =>
    intro arg hlt
    by_cases hpage : ip < P.PAGE_SIZE
    · exact ⟨arg, by simp only [_Unwind_Backtrace, Unwind_Trace_guard P ip arg hlt hpage]⟩
    · by_cases hfull : arg.stack.size + 1 = arg.max_depth
      · exact ⟨{ arg with stack := { trace_buffer := arg.stack.trace_buffer ++ [ip] } }, by
          simp only [_Unwind_Backtrace, Unwind_Trace_last P ip arg hlt hpage hfull]⟩
      · have hlt' : ({ arg with stack :=
            { trace_buffer := arg.stack.trace_buffer ++ [ip] } } : UnwindTraceArg).stack.size <
            ({ arg with stack :=
              { trace_buffer := arg.stack.trace_buffer ++ [ip] } } : UnwindTraceArg).max_depth := by
          simp only [BufferedStackTrace.size, List.length_append, List.length_singleton]
          simp only [BufferedStackTrace.size] at hfull hlt
          omega
        obtain ⟨arg', h'⟩ := ih _ hlt'
        exact ⟨arg', by
          simp only [_Unwind_Backtrace, Unwind_Trace_more P ip arg hlt hpage hfull]
          exact h'⟩

/-- A first frame at or above the guard threshold is collected. -/
theorem Unwind_Backtrace_first (P : Platform) (ip : Nat) (walker : List Nat)
    (max_depth : Nat) (arg' : UnwindTraceArg) (hpage : P.PAGE_SIZE ≤ ip)
    (h : _Unwind_Backtrace (Unwind_Trace P) (ip :: walker)
      { stack := { trace_buffer := [] }, max_depth := max_depth } = some arg') :
    0 < arg'.stack.size := by
  have hpage' : ¬ ip < P.PAGE_SIZE := Nat.not_lt.mpr hpage
  by_cases hlt : (0 : Nat) < max_depth
  · have hlt' : ({ stack := { trace_buffer := [] }, max_depth := max_depth } :
        UnwindTraceArg).stack.size <
        ({ stack := { trace_buffer := [] }, max_depth := max_depth } :
          UnwindTraceArg).max_depth := hlt
    by_cases hfull : ({ stack := { trace_buffer := [] }, max_depth := max_depth } :
        UnwindTraceArg).stack.size + 1 =
        ({ stack := { trace_buffer := [] }, max_depth := max_depth } :
          UnwindTraceArg).max_depth
    · simp only [_Unwind_Backtrace, Unwind_Trace_last P ip _ hlt' hpage' hfull,
        Option.some.injEq] at h
      rw [← h]
      simp [BufferedStackTrace.size]
    · simp only [_Unwind_Backtrace, Unwind_Trace_more P ip _ hlt' hpage' hfull] at h
      have hb := Unwind_Backtrace_bounds P walker _ arg'
        (by
          simp only [BufferedStackTrace.size, List.length_append, List.length_singleton,
            List.length_nil]
          simp only [BufferedStackTrace.size, List.length_nil] at hfull
          omega) h
      have hlen := hb.2.2.length_le
      simp only [List.nil_append, List.length_singleton] at hlen
      exact hlen
  · have hlt' : ¬ ({ stack := { trace_buffer := [] }, max_depth := max_depth } :
        UnwindTraceArg).stack.size <
        ({ stack := { trace_buffer := [] }, max_depth := max_depth } :
          UnwindTraceArg).max_depth := hlt
    simp [_Unwind_Backtrace, Unwind_Trace_check_fails P ip _ hlt'] at h

/-- The runs of `UnwindSlow` that complete: `max_depth` passes its check, the
collecting phase completes with at least one frame, the number of frames to
pop is below the size, and the result is what is left after popping, with
slot 0 overwritten by `pc`. -/
theorem UnwindSlow_eq_some_iff (P : Platform) (locatePc : Nat → BufferedStackTrace → Nat)
    (walker : List Nat) (pc max_depth : Nat) (stack : BufferedStackTrace) :
    UnwindSlow P locatePc walker pc max_depth = some stack ↔
      2 ≤ max_depth ∧
      ∃ arg : UnwindTraceArg,
        _Unwind_Backtrace (Unwind_Trace P) walker
          { stack := { trace_buffer := [] }
            max_depth := min ((max_depth + 1) % 2 ^ 32) P.kStackTraceMax } = some arg ∧
        0 < arg.stack.size ∧
        min (locatePc pc arg.stack) 1 < arg.stack.size ∧
        stack = { trace_buffer :=
          (arg.stack.trace_buffer.drop (min (locatePc pc arg.stack) 1)).set 0 pc } := by
  unfold UnwindSlow
  by_cases hd : max_depth ≥ 2
  · simp only [hd, if_true, true_and]
    cases hbt : _Unwind_Backtrace (Unwind_Trace P) walker
        { stack := { trace_buffer := [] }
          max_depth := min ((max_depth + 1) % 2 ^ 32) P.kStackTraceMax } with
    | none => simp
    | some arg =>
      simp only [Option.some.injEq, exists_eq_left']
      by_cases hs : arg.stack.size > 0
      · by_cases hp : min (locatePc pc arg.stack) 1 < arg.stack.size
        · simp only [hs, hp, if_true, PopStackFrames, Option.some.injEq, true_and]
          exact eq_comm
        · simp [hs, hp, PopStackFrames]
      · simp [hs]
  · have hd' : ¬ 2 ≤ max_depth := hd
    simp [hd, hd']

/-- C10 (capture alignment). Whenever `UnwindSlow(pc, max_depth)` completes,
for any walker sequence and whatever `LocatePcInTrace` returns, slot 0 of the
resulting buffer is `pc` and its size is at least 1 and at most the effective
capacity `min(max_depth + 1, kStackTraceMax)`. And it does complete when
`max_depth >= 2` is a `u32` below its maximum, the hard ceiling is at least 1,
the first address of the walker is not below the guard threshold and
`LocatePcInTrace` returns an index inside the collected trace. -/
theorem UnwindSlow_alignment (P : Platform) (locatePc : Nat → BufferedStackTrace → Nat)
    (walker : List Nat) (pc max_depth : Nat) :
    (∀ stack : BufferedStackTrace,
      UnwindSlow P locatePc walker pc max_depth = some stack →
      2 ≤ max_depth ∧ stack.trace_buffer[0]? = some pc ∧ 1 ≤ stack.size ∧
        stack.size ≤ min (max_depth + 1) P.kStackTraceMax) ∧
    (2 ≤ max_depth → max_depth + 1 < 2 ^ 32 → 1 ≤ P.kStackTraceMax →
      (∃ ip rest, walker = ip :: rest ∧ P.PAGE_SIZE ≤ ip) →
      (∀ collected : BufferedStackTrace, 0 < collected.size →
        locatePc pc collected < collected.size) →
      ∃ stack, UnwindSlow P locatePc walker pc max_depth = some stack) := by
  constructor
  · intro stack h
    obtain ⟨hd, arg, hbt, hpos, hpop, hstack⟩ :=
      (UnwindSlow_eq_some_iff P locatePc walker pc max_depth stack).mp h
    have hb := Unwind_Backtrace_bounds P walker _ arg (Nat.zero_le _) hbt
    have hsize : arg.stack.size ≤ min ((max_depth + 1) % 2 ^ 32) P.kStackTraceMax := hb.2.1
    have hmod : (max_depth + 1) % 2 ^ 32 ≤ max_depth + 1 := Nat.mod_le _ _
    have hlen : stack.size =
        arg.stack.size - min (locatePc pc arg.stack) 1 := by
      rw [hstack]
      simp [BufferedStackTrace.size]
    simp only [BufferedStackTrace.size] at hlen hsize hpop hpos
    refine ⟨hd, ?_, ?_, ?_⟩
    · rw [hstack]
      show ((arg.stack.trace_buffer.drop (min (locatePc pc arg.stack) 1)).set 0 pc)[0]? = some pc
      rw [List.getElem?_set_self]
      simp only [List.length_drop]
      omega
    · simp only [BufferedStackTrace.size]
      omega
    · simp only [BufferedStackTrace.size, le_min_iff] at hsize ⊢
      omega
  · intro hd hu32 hmax hwalker hloc
    obtain ⟨ip, rest, hw, hpage⟩ := hwalker
    have hcap : 0 < min ((max_depth + 1) % 2 ^ 32) P.kStackTraceMax := by
      rw [Nat.mod_eq_of_lt hu32]
      exact lt_min (by omega) (by omega)
    obtain ⟨arg, hbt⟩ := Unwind_Backtrace_total P walker
      { stack := { trace_buffer := [] }
        max_depth := min ((max_depth + 1) % 2 ^ 32) P.kStackTraceMax } hcap
    have hpos : 0 < arg.stack.size := by
      rw [hw] at hbt
      exact Unwind_Backtrace_first P ip rest _ arg hpage hbt
    have hpop : min (locatePc pc arg.stack) 1 < arg.stack.size :=
      lt_of_le_of_lt (min_le_left _ _) (hloc arg.stack hpos)
    exact ⟨_, (UnwindSlow_eq_some_iff P locatePc walker pc max_depth _).mpr
      ⟨hd, arg, hbt, hpos, hpop, rfl⟩⟩

/-- A concrete instance of C10, scenario C of the specification: `pc` is
0x400010, the walker yields 0x400010, 0x400500 and 0x10. -/
theorem UnwindSlow_alignment_witness :
    UnwindSlow Platform.lp64 LocatePcInTrace [0x400010, 0x400500, 0x10] 0x400010 10 =
      some { trace_buffer := [0x400010, 0x400500] } ∧
    (2 ≤ 10 ∧ ({ trace_buffer := [0x400010, 0x400500] } : BufferedStackTrace).trace_buffer[0]? =
        some 0x400010 ∧
      1 ≤ ({ trace_buffer := [0x400010, 0x400500] } : BufferedStackTrace).size ∧
      ({ trace_buffer := [0x400010, 0x400500] } : BufferedStackTrace).size ≤
        min (10 + 1) Platform.lp64.kStackTraceMax) :=
  ⟨by decide,
    (UnwindSlow_alignment Platform.lp64 LocatePcInTrace [0x400010, 0x400500, 0x10]
      0x400010 10).1 _ (by decide)⟩

/-- The collecting phase in closed form: started below `max_depth`, it adds
the addresses of the walker that come before the first one below the guard
threshold, as many as fit below `max_depth`. -/
theorem Unwind_Backtrace_collects (P : Platform) (walker : List Nat) :
    ∀ (arg : UnwindTraceArg), arg.stack.size < arg.max_depth →
      _Unwind_Backtrace (Unwind_Trace P) walker arg =
        some { stack := { trace_buffer := arg.stack.trace_buffer ++
                 walker.take (min (arg.max_depth - arg.stack.size)
                   (walker.findIdx (fun ip => decide (ip < P.PAGE_SIZE)))) }
               max_depth := arg.max_depth } := by
  induction walker with
  | nil =>
    intro arg _
    simp [_Unwind_Backtrace]
  | cons ip walker ih =>
    intro arg hlt
    by_cases hpage : ip < P.PAGE_SIZE
    · simp [_Unwind_Backtrace, Unwind_Trace_guard P ip arg hlt hpage, List.findIdx_cons, hpage]
    · by_cases hfull : arg.stack.size + 1 = arg.max_depth
      · have h1 : arg.max_depth - arg.stack.size = 1 := by omega
        simp [_Unwind_Backtrace, Unwind_Trace_last P ip arg hlt hpage hfull, List.findIdx_cons,
          hpage, h1]
      · have hlt' : ({ arg with stack :=
            { trace_buffer := arg.stack.trace_buffer ++ [ip] } } : UnwindTraceArg).stack.size <
            ({ arg with stack :=
              { trace_buffer := arg.stack.trace_buffer ++ [ip] } } : UnwindTraceArg).max_depth := by
          simp only [BufferedStackTrace.size, List.length_append, List.length_singleton]
          simp only [BufferedStackTrace.size] at hfull hlt
          omega
        have hmin : min (arg.max_depth - arg.stack.size)
            (walker.findIdx (fun ip => decide (ip < P.PAGE_SIZE)) + 1) =
            min (arg.max_depth - (arg.stack.size + 1))
              (walker.findIdx (fun ip => decide (ip < P.PAGE_SIZE))) + 1 := by
          omega
        have hR : (ip :: walker).take (min (arg.max_depth - arg.stack.size)
            ((ip :: walker).findIdx (fun ip => decide (ip < P.PAGE_SIZE)))) =
            ip :: walker.take (min (arg.max_depth - (arg.stack.size + 1))
              (walker.findIdx (fun ip => decide (ip < P.PAGE_SIZE)))) := by
          rw [List.findIdx_cons]
          simp only [hpage, decide_False, cond_false]
          rw [hmin, List.take_succ_cons]
        simp only [_Unwind_Backtrace, Unwind_Trace_more P ip arg hlt hpage hfull]
        rw [ih _ hlt', hR]
        simp [BufferedStackTrace.size]

theorem findIdx_take_all_not (p : Nat → Bool) (l : List Nat) (n : Nat) :
    ∀ a ∈ l.take (min n (l.findIdx p)), p a = false := by
  induction l generalizing n with
  | nil => intro a ha; simp at ha
  | cons b l ih =>
    intro a ha
    cases hb : p b with
    | true => simp [List.findIdx_cons, hb] at ha
    | false =>
      cases n with
      | zero => simp at ha
      | succ n =>
        have hmin : min (n + 1) (l.findIdx p + 1) = min n (l.findIdx p) + 1 := by omega
        simp only [List.findIdx_cons, hb, cond_false, hmin, List.take_succ_cons,
          List.mem_cons] at ha
        rcases ha with rfl | ha
        · exact hb
        · exact ih n a ha

/-- C11 (guard truncation in the collecting phase). For every `max_depth` and
every walker sequence, with `capacity` the value `Min(max_depth + 1,
kStackTraceMax)` that `UnwindSlow` hands to the callback and `j` the index of
the first walker address below `PAGE_SIZE` (the length of the sequence when
there is none): when `capacity` is positive the collecting phase completes
and the buffer it leaves is exactly the first `min(capacity, j)` addresses of
the walker, none of which is below the guard threshold; this is the buffer
that `UnwindSlow` then aligns. When `capacity` is zero nothing is recorded
either: the phase leaves the empty buffer for an empty walker and fails its
`CHECK_LT` at the first callback otherwise. `capacity` is
`min(max_depth + 1, kStackTraceMax)` whenever `max_depth + 1` fits a `u32`. -/
theorem Unwind_Trace_guard_truncation (P : Platform) (walker : List Nat) (max_depth : Nat) :
    (0 < min ((max_depth + 1) % 2 ^ 32) P.kStackTraceMax →
      _Unwind_Backtrace (Unwind_Trace P) walker
        { stack := { trace_buffer := [] }
          max_depth := min ((max_depth + 1) % 2 ^ 32) P.kStackTraceMax } =
        some
          { stack :=
              { trace_buffer :=
                  walker.take (min (min ((max_depth + 1) % 2 ^ 32) P.kStackTraceMax)
                    (walker.findIdx (fun ip => decide (ip < P.PAGE_SIZE)))) }
            max_depth := min ((max_depth + 1) % 2 ^ 32) P.kStackTraceMax }) ∧
    (∀ ip ∈ walker.take (min (min ((max_depth + 1) % 2 ^ 32) P.kStackTraceMax)
        (walker.findIdx (fun ip => decide (ip < P.PAGE_SIZE)))), P.PAGE_SIZE ≤ ip) ∧
    (∀ (locatePc : Nat → BufferedStackTrace → Nat) (pc : Nat) (stack : BufferedStackTrace),
      UnwindSlow P locatePc walker pc max_depth = some stack →
      stack.trace_buffer =
        ((walker.take (min (min ((max_depth + 1) % 2 ^ 32) P.kStackTraceMax)
            (walker.findIdx (fun ip => decide (ip < P.PAGE_SIZE))))).drop
          (min (locatePc pc
            { trace_buffer :=
                walker.take (min (min ((max_depth + 1) % 2 ^ 32) P.kStackTraceMax)
                  (walker.findIdx (fun ip => decide (ip < P.PAGE_SIZE)))) }) 1)).set 0 pc) ∧
    (min ((max_depth + 1) % 2 ^ 32) P.kStackTraceMax = 0 →
      _Unwind_Backtrace (Unwind_Trace P) walker
        { stack := { trace_buffer := [] }
          max_depth := min ((max_depth + 1) % 2 ^ 32) P.kStackTraceMax } =
        if walker = [] then some { stack := { trace_buffer := [] }, max_depth := 0 } else none) ∧
    (max_depth + 1 < 2 ^ 32 →
      min ((max_depth + 1) % 2 ^ 32) P.kStackTraceMax = min (max_depth + 1) P.kStackTraceMax) := by
  have hcollect : 0 < min ((max_depth + 1) % 2 ^ 32) P.kStackTraceMax →
      _Unwind_Backtrace (Unwind_Trace P) walker
        { stack := { trace_buffer := [] }
          max_depth := min ((max_depth + 1) % 2 ^ 32) P.kStackTraceMax } =
        some
          { stack :=
              { trace_buffer :=
                  walker.take (min (min ((max_depth + 1) % 2 ^ 32) P.kStackTraceMax)
                    (walker.findIdx (fun ip => decide (ip < P.PAGE_SIZE)))) }
            max_depth := min ((max_depth + 1) % 2 ^ 32) P.kStackTraceMax } := by
    intro hpos
    have h := Unwind_Backtrace_collects P walker
      { stack := { trace_buffer := [] }
        max_depth := min ((max_depth + 1) % 2 ^ 32) P.kStackTraceMax } hpos
    simpa [BufferedStackTrace.size] using h
  refine ⟨hcollect, ?_, ?_, ?_, ?_⟩
  · intro ip hip
    have h := findIdx_take_all_not (fun ip => decide (ip < P.PAGE_SIZE)) walker _ ip hip
    simpa using h
  · intro locatePc pc stack h
    obtain ⟨_, arg, hbt, hpos, _, hstack⟩ :=
      (UnwindSlow_eq_some_iff P locatePc walker pc max_depth stack).mp h
    have hcap : 0 < min ((max_depth + 1) % 2 ^ 32) P.kStackTraceMax := by
      have hb := Unwind_Backtrace_bounds P walker _ arg (Nat.zero_le _) hbt
      exact lt_of_lt_of_le hpos hb.2.1
    rw [hcollect hcap] at hbt
    simp only [Option.some.injEq] at hbt
    subst hbt
    rw [hstack]
  · intro hzero
    rw [hzero]
    cases walker with
    | nil => simp [_Unwind_Backtrace]
    | cons ip walker =>
      have hfail : Unwind_Trace P ip { stack := { trace_buffer := [] }, max_depth := 0 } = none :=
        Unwind_Trace_check_fails P ip _ (by simp [BufferedStackTrace.size])
      simp [_Unwind_Backtrace, hfail]
  · intro hfit
    rw [Nat.mod_eq_of_lt hfit]

/-- A concrete instance of C11, scenario C of the specification: the walker
yields 0x400010, 0x400500 and 0x10, the guard threshold is 0x1000. -/
theorem Unwind_Trace_guard_truncation_witness :
    0 < min ((10 + 1) % 2 ^ 32) Platform.lp64.kStackTraceMax ∧
    _Unwind_Backtrace (Unwind_Trace Platform.lp64) [0x400010, 0x400500, 0x10]
      { stack := { trace_buffer := [] }
        max_depth := min ((10 + 1) % 2 ^ 32) Platform.lp64.kStackTraceMax } =
      some
        { stack :=
            { trace_buffer :=
                [0x400010, 0x400500, 0x10].take
                  (min (min ((10 + 1) % 2 ^ 32) Platform.lp64.kStackTraceMax)
                    ([0x400010, 0x400500, 0x10].findIdx
                      (fun ip => decide (ip < Platform.lp64.PAGE_SIZE)))) }
          max_depth := min ((10 + 1) % 2 ^ 32) Platform.lp64.kStackTraceMax } ∧
    [0x400010, 0x400500, 0x10].take
      (min (min ((10 + 1) % 2 ^ 32) Platform.lp64.kStackTraceMax)
        ([0x400010, 0x400500, 0x10].findIdx
          (fun ip => decide (ip < Platform.lp64.PAGE_SIZE)))) = [0x400010, 0x400500] ∧
    _Unwind_Backtrace (Unwind_Trace Platform.lp64) [0x400010, 0x400500, 0x400600, 0x400700]
      { stack := { trace_buffer := [] }
        max_depth := min ((2 + 1) % 2 ^ 32) Platform.lp64.kStackTraceMax } =
      some { stack := { trace_buffer := [0x400010, 0x400500, 0x400600] }, max_depth := 3 } :=
  ⟨by decide,
    (Unwind_Trace_guard_truncation Platform.lp64 [0x400010, 0x400500, 0x10] 10).1 (by decide),
    by decide, by decide⟩

theorem LocatePcInTrace_head (pc : Nat) (stack : BufferedStackTrace)
    (h : stack.trace_buffer.head? = some pc) : LocatePcInTrace pc stack = 0 := by
  have h0 : stack.trace_buffer.getD 0 0 = pc := by
    cases hs : stack.trace_buffer with
    | nil => rw [hs] at h; simp at h
    | cons a t =>
      rw [hs] at h
      simp only [List.head?_cons, Option.some.injEq] at h
      simp [h]
  have hfold : ∀ l : List Nat, l.foldl
      (fun best i =>
        if Distance (stack.trace_buffer.getD i 0) pc < Distance (stack.trace_buffer.getD best 0) pc
        then i else best) 0 = 0 := by
    intro l
    induction l with
    | nil => rfl
    | cons i l ih =>
      have hd : Distance (stack.trace_buffer.getD 0 0) pc = 0 := by
        rw [h0]; simp [Distance]
      simp only [List.foldl_cons, hd, Nat.not_lt_zero, if_false]
      exact ih
  exact hfold _

/-- C12 (no popping when the walker already starts at `pc`). For every
`max_depth >= 2` and every walker sequence for which the collecting phase
completes with `pc` as the first collected address, `LocatePcInTrace`, the
search for the collected address closest to `pc` with the first index on
ties, returns 0, and `UnwindSlow(pc, max_depth)` drops no frame: it returns
exactly the collected sequence. -/
theorem UnwindSlow_first_is_pc_no_pop (P : Platform) (walker : List Nat)
    (pc max_depth : Nat) (arg : UnwindTraceArg) (hd : 2 ≤ max_depth)
    (hbt : _Unwind_Backtrace (Unwind_Trace P) walker
      { stack := { trace_buffer := [] }
        max_depth := min ((max_depth + 1) % 2 ^ 32) P.kStackTraceMax } = some arg)
    (hhead : arg.stack.trace_buffer.head? = some pc) :
    LocatePcInTrace pc arg.stack = 0 ∧
    UnwindSlow P LocatePcInTrace walker pc max_depth = some arg.stack := by
  have hloc := LocatePcInTrace_head pc arg.stack hhead
  refine ⟨hloc, ?_⟩
  rw [UnwindSlow_eq_some_iff]
  refine ⟨hd, arg, hbt, ?_, ?_, ?_⟩
  · cases hs : arg.stack.trace_buffer with
    | nil => rw [hs] at hhead; simp at hhead
    | cons a t => simp [BufferedStackTrace.size, hs]
  · rw [hloc]
    cases hs : arg.stack.trace_buffer with
    | nil => rw [hs] at hhead; simp at hhead
    | cons a t => simp [BufferedStackTrace.size, hs]
  · rw [hloc]
    cases hs : arg.stack.trace_buffer with
    | nil => rw [hs] at hhead; simp at hhead
    | cons a t =>
      rw [hs] at hhead
      simp only [List.head?_cons, Option.some.injEq] at hhead
      have : arg.stack = { trace_buffer := a :: t } := by
        cases hst : arg.stack with
        | mk tb => rw [hst] at hs; simp at hs; rw [hs]
      rw [this, hhead]
      simp

/-- A concrete instance of C12, scenario C of the specification: `pc` is
0x400010, the walker yields 0x400010, 0x400500 and 0x10, the guard threshold
is 0x1000, and the final buffer is exactly 0x400010, 0x400500. -/
theorem UnwindSlow_first_is_pc_no_pop_witness :
    2 ≤ 10 ∧
    _Unwind_Backtrace (Unwind_Trace Platform.lp64) [0x400010, 0x400500, 0x10]
      { stack := { trace_buffer := [] }
        max_depth := min ((10 + 1) % 2 ^ 32) Platform.lp64.kStackTraceMax } =
      some { stack := { trace_buffer := [0x400010, 0x400500] }, max_depth := 11 } ∧
    ({ trace_buffer := [0x400010, 0x400500] } : BufferedStackTrace).trace_buffer.head? =
      some 0x400010 ∧
    LocatePcInTrace 0x400010 { trace_buffer := [0x400010, 0x400500] } = 0 ∧
    UnwindSlow Platform.lp64 LocatePcInTrace [0x400010, 0x400500, 0x10] 0x400010 10 =
      some { trace_buffer := [0x400010, 0x400500] } :=
  ⟨by decide, by decide, by decide,
    UnwindSlow_first_is_pc_no_pop Platform.lp64 [0x400010, 0x400500, 0x10] 0x400010 10
      { stack := { trace_buffer := [0x400010, 0x400500] }, max_depth := 11 }
      (by decide) (by decide) (by decide)⟩

/-- C13: the code at `max_depth = 4294967295`, the largest `u32`. The `u32`
sum `max_depth + 1` wraps to 0, so the capacity handed to the callback is 0,
not `min(max_depth + 1, kStackTraceMax) = 255`; the first callback then fails
`CHECK_LT(size, max_depth)` and `UnwindSlow` ends in that failed check. -/
theorem UnwindSlow_max_depth_wraps :
    2 ≤ 4294967295 ∧ 4294967295 < 2 ^ 32 ∧
    min ((4294967295 + 1) % 2 ^ 32) Platform.lp64.kStackTraceMax = 0 ∧
    min (4294967295 + 1) Platform.lp64.kStackTraceMax = 255 ∧
    Unwind_Trace Platform.lp64 0x400010
      { stack := { trace_buffer := [] }
        max_depth := min ((4294967295 + 1) % 2 ^ 32) Platform.lp64.kStackTraceMax } = none ∧
    _Unwind_Backtrace (Unwind_Trace Platform.lp64) [0x400010, 0x400500]
      { stack := { trace_buffer := [] }
        max_depth := min ((4294967295 + 1) % 2 ^ 32) Platform.lp64.kStackTraceMax } = none ∧
    UnwindSlow Platform.lp64 LocatePcInTrace [0x400010, 0x400500] 0x400010 4294967295 = none :=
  ⟨by decide, by decide, by decide, by decide, by decide, by decide, by decide⟩

/-- C14 (alignment drops at most one frame). For every `pc`, every
`max_depth >= 2` and every walker for which the collecting phase completes
with a non-empty sequence `C`, whatever index `t` inside `C`
`LocatePcInTrace` returns: `UnwindSlow` completes, `PopStackFrames` is asked
to pop `min(t, 1)` frames and does so, the final size is `|C| - min(t, 1)`,
which is at least `|C| - 1`, and the final buffer is `pc` followed by the
elements of `C` from index `min(t, 1) + 1` onward, in their original order. -/
theorem UnwindSlow_pops_at_most_one (P : Platform)
    (locatePc : Nat → BufferedStackTrace → Nat) (walker : List Nat) (pc max_depth : Nat)
    (arg : UnwindTraceArg) (hd : 2 ≤ max_depth)
    (hbt : _Unwind_Backtrace (Unwind_Trace P) walker
      { stack := { trace_buffer := [] }
        max_depth := min ((max_depth + 1) % 2 ^ 32) P.kStackTraceMax } = some arg)
    (hne : arg.stack.trace_buffer ≠ [])
    (ht : locatePc pc arg.stack < arg.stack.size) :
    ∃ stack : BufferedStackTrace,
      UnwindSlow P locatePc walker pc max_depth = some stack ∧
      PopStackFrames arg.stack (min (locatePc pc arg.stack) 1) =
        some { trace_buffer := arg.stack.trace_buffer.drop (min (locatePc pc arg.stack) 1) } ∧
      min (locatePc pc arg.stack) 1 ≤ 1 ∧
      stack.size = arg.stack.size - min (locatePc pc arg.stack) 1 ∧
      arg.stack.size - 1 ≤ stack.size ∧
      stack.trace_buffer =
        pc :: arg.stack.trace_buffer.drop (min (locatePc pc arg.stack) 1 + 1) := by
  have hpos : 0 < arg.stack.size := by
    simp only [BufferedStackTrace.size]
    exact List.length_pos.mpr hne
  have hpop : min (locatePc pc arg.stack) 1 < arg.stack.size :=
    lt_of_le_of_lt (min_le_left _ _) ht
  have hdrop : (arg.stack.trace_buffer.drop (min (locatePc pc arg.stack) 1)).set 0 pc =
      pc :: arg.stack.trace_buffer.drop (min (locatePc pc arg.stack) 1 + 1) := by
    cases hdr : arg.stack.trace_buffer.drop (min (locatePc pc arg.stack) 1) with
    | nil =>
      have hlen := congrArg List.length hdr
      simp only [List.length_drop, List.length_nil, BufferedStackTrace.size] at hlen hpop
      omega
    | cons a t =>
      have htail : arg.stack.trace_buffer.drop (min (locatePc pc arg.stack) 1 + 1) = t := by
        rw [← List.drop_drop, hdr]
        rfl
      rw [htail]
      rfl
  refine ⟨{ trace_buffer :=
      (arg.stack.trace_buffer.drop (min (locatePc pc arg.stack) 1)).set 0 pc }, ?_, ?_,
    min_le_right _ _, ?_, ?_, hdrop⟩
  · exact (UnwindSlow_eq_some_iff P locatePc walker pc max_depth _).mpr
      ⟨hd, arg, hbt, hpos, hpop, rfl⟩
  · simp [PopStackFrames, hpop]
  · simp [BufferedStackTrace.size]
  · simp only [BufferedStackTrace.size, List.length_set, List.length_drop]
    have := min_le_right (locatePc pc arg.stack) 1
    omega

/-- A concrete instance of C14: `pc` is 0x400510, closest to the third of the
four collected addresses; one frame is popped, not two. -/
theorem UnwindSlow_pops_at_most_one_witness :
    2 ≤ 10 ∧
    _Unwind_Backtrace (Unwind_Trace Platform.lp64) [0x400010, 0x400100, 0x400500, 0x400900]
      { stack := { trace_buffer := [] }
        max_depth := min ((10 + 1) % 2 ^ 32) Platform.lp64.kStackTraceMax } =
      some { stack := { trace_buffer := [0x400010, 0x400100, 0x400500, 0x400900] },
             max_depth := 11 } ∧
    LocatePcInTrace 0x400510 { trace_buffer := [0x400010, 0x400100, 0x400500, 0x400900] } = 2 ∧
    UnwindSlow Platform.lp64 LocatePcInTrace [0x400010, 0x400100, 0x400500, 0x400900]
      0x400510 10 = some { trace_buffer := [0x400510, 0x400500, 0x400900] } ∧
    ∃ stack : BufferedStackTrace,
      UnwindSlow Platform.lp64 LocatePcInTrace [0x400010, 0x400100, 0x400500, 0x400900]
        0x400510 10 = some stack ∧
      PopStackFrames { trace_buffer := [0x400010, 0x400100, 0x400500, 0x400900] }
        (min (LocatePcInTrace 0x400510
          { trace_buffer := [0x400010, 0x400100, 0x400500, 0x400900] }) 1) =
        some
          { trace_buffer :=
              [0x400010, 0x400100, 0x400500, 0x400900].drop
                (min (LocatePcInTrace 0x400510
                  { trace_buffer := [0x400010, 0x400100, 0x400500, 0x400900] }) 1) } ∧
      min (LocatePcInTrace 0x400510
        { trace_buffer := [0x400010, 0x400100, 0x400500, 0x400900] }) 1 ≤ 1 ∧
      stack.size =
        ({ trace_buffer := [0x400010, 0x400100, 0x400500, 0x400900] } : BufferedStackTrace).size
          - min (LocatePcInTrace 0x400510
            { trace_buffer := [0x400010, 0x400100, 0x400500, 0x400900] }) 1 ∧
      ({ trace_buffer := [0x400010, 0x400100, 0x400500, 0x400900] } : BufferedStackTrace).size
        - 1 ≤ stack.size ∧
      stack.trace_buffer =
        0x400510 :: [0x400010, 0x400100, 0x400500, 0x400900].drop
          (min (LocatePcInTrace 0x400510
            { trace_buffer := [0x400010, 0x400100, 0x400500, 0x400900] }) 1 + 1) :=
  ⟨by decide, by decide, by decide, by decide,
    UnwindSlow_pops_at_most_one Platform.lp64 LocatePcInTrace
      [0x400010, 0x400100, 0x400500, 0x400900] 0x400510 10
      { stack := { trace_buffer := [0x400010, 0x400100, 0x400500, 0x400900] }, max_depth := 11 }
      (by decide) (by decide) (by decide) (by decide)⟩

/-- C15 (capture contract violations). `UnwindSlow(pc, max_depth)` ends in a
failed `CHECK` whenever `max_depth < 2`, whenever the walker yields no address
at all, and whenever the first address it yields is below the guard
threshold; the context-taking form ends fatally for every input and never
produces a buffer. -/
theorem UnwindSlow_contract_violations (P : Platform)
    (locatePc : Nat → BufferedStackTrace → Nat) (pc max_depth : Nat) :
    (max_depth < 2 → ∀ walker, UnwindSlow P locatePc walker pc max_depth = none) ∧
    UnwindSlow P locatePc [] pc max_depth = none ∧
    (∀ ip rest, ip < P.PAGE_SIZE →
      UnwindSlow P locatePc (ip :: rest) pc max_depth = none) ∧
    (∀ context, UnwindSlowWithContext pc context max_depth = none) := by
  refine ⟨?_, ?_, ?_, ?_⟩
  · intro hlt walker
    have h : ¬ max_depth ≥ 2 := by omega
    simp [UnwindSlow, h]
  · cases hres : UnwindSlow P locatePc [] pc max_depth with
    | none => rfl
    | some stack =>
      exfalso
      obtain ⟨_, arg, hbt, hpos, _, _⟩ :=
        (UnwindSlow_eq_some_iff P locatePc [] pc max_depth stack).mp hres
      simp only [_Unwind_Backtrace, Option.some.injEq] at hbt
      rw [← hbt] at hpos
      simp [BufferedStackTrace.size] at hpos
  · intro ip rest hpage
    cases hres : UnwindSlow P locatePc (ip :: rest) pc max_depth with
    | none => rfl
    | some stack =>
      exfalso
      obtain ⟨_, arg, hbt, hpos, _, _⟩ :=
        (UnwindSlow_eq_some_iff P locatePc (ip :: rest) pc max_depth stack).mp hres
      by_cases hcap : (UnwindTraceArg.mk { trace_buffer := [] }
          (min ((max_depth + 1) % 2 ^ 32) P.kStackTraceMax)).stack.size <
          (UnwindTraceArg.mk { trace_buffer := [] }
            (min ((max_depth + 1) % 2 ^ 32) P.kStackTraceMax)).max_depth
      · simp only [_Unwind_Backtrace, Unwind_Trace_guard P ip _ hcap hpage,
          Option.some.injEq] at hbt
        rw [← hbt] at hpos
        simp [BufferedStackTrace.size] at hpos
      · simp only [_Unwind_Backtrace, Unwind_Trace_check_fails P ip _ hcap] at hbt
        cases hbt
  · intro context
    simp [UnwindSlowWithContext]

/-- A concrete instance of C15: depth 1, an empty walker, a walker whose
first address 0x10 is below the guard threshold 0x1000, and the context
form. -/
theorem UnwindSlow_contract_violations_witness :
    (1 < 2 → ∀ walker, UnwindSlow Platform.lp64 LocatePcInTrace walker 0x400010 1 = none) ∧
    UnwindSlow Platform.lp64 LocatePcInTrace [] 0x400010 10 = none ∧
    UnwindSlow Platform.lp64 LocatePcInTrace [0x10, 0x400010, 0x400500] 0x400010 10 = none ∧
    UnwindSlowWithContext 0x400010 0 10 = none ∧
    UnwindSlowWithContext 0x400010 0x7fff0000 10 = none :=
  ⟨(UnwindSlow_contract_violations Platform.lp64 LocatePcInTrace 0x400010 1).1,
    by decide, by decide, by decide, by decide⟩

/-- C19: the code on scenario C of the specification. Two frames are
collected, `pc` equals the first of them, `LocatePcInTrace` returns 0, so
`Min(to_pop, 1)` is 0 and no frame is popped: the final size is 2, not 1. -/
theorem UnwindSlow_leading_frame_kept :
    (_Unwind_Backtrace (Unwind_Trace Platform.lp64) [0x400010, 0x400500, 0x10]
      { stack := { trace_buffer := [] }
        max_depth := min ((10 + 1) % 2 ^ 32) Platform.lp64.kStackTraceMax }).map
      (fun arg => arg.stack.size) = some 2 ∧
    LocatePcInTrace 0x400010 { trace_buffer := [0x400010, 0x400500] } = 0 ∧
    PopStackFrames { trace_buffer := [0x400010, 0x400500] }
      (min (LocatePcInTrace 0x400010 { trace_buffer := [0x400010, 0x400500] }) 1) =
      some { trace_buffer := [0x400010, 0x400500] } ∧
    (UnwindSlow Platform.lp64 LocatePcInTrace [0x400010, 0x400500, 0x10] 0x400010 10).map
      (fun stack => stack.size) = some 2 :=
  ⟨by decide, by decide, by decide, by decide⟩

theorem text_demangle (P : Platform) (s : String) :
    VSNPrintf P MarkupConstants.markup.kFormatDemangle.data [Arg.str s] =
      "\x7b\x7b\x7bsymbol:".data ++ s.data ++ "\x7d\x7d\x7d".data := by
  simp [VSNPrintf, MarkupConstants.markup]

/-- The encoder yields as many bytes as the UTF-8 size of the character. -/
theorem utf8EncodeChar_length (c : Char) : (utf8EncodeChar c).length = c.utf8Size := by
  have hle : ∀ (n : Nat) (h : n < UInt32.size),
      (c.val ≤ UInt32.ofNatCore n h) ↔ c.toNat ≤ n := by
    intro n h
    rw [UInt32.le_def, BitVec.le_def]
    rfl
  unfold utf8EncodeChar Char.utf8Size
  simp only [hle]
  split_ifs <;> rfl

/-- The byte count of a text is its UTF-8 byte size. -/
theorem utf8Bytes_length (s : String) : (utf8Bytes s.data).length = s.utf8ByteSize := by
  cases s with
  | mk data =>
    induction data with
    | nil => rfl
    | cons c data ih =>
      simp only [utf8Bytes, List.flatMap_cons, List.length_append] at ih ⊢
      rw [ih, utf8EncodeChar_length]
      simp [String.utf8ByteSize, String.utf8ByteSize.go]
      omega

/-- One, two, three and four byte encodings. -/
theorem utf8EncodeChar_examples :
    utf8EncodeChar 'a' = [0x61] ∧ utf8EncodeChar 'é' = [0xc3, 0xa9] ∧
    utf8EncodeChar '€' = [0xe2, 0x82, 0xac] ∧
    utf8EncodeChar (Char.ofNat 0x1f600) = [0xf0, 0x9f, 0x98, 0x80] := by
  decide

theorem utf8Bytes_append (a b : List Char) : utf8Bytes (a ++ b) = utf8Bytes a ++ utf8Bytes b := by
  simp [utf8Bytes]

theorem utf8Bytes_replicate_length (n : Nat) (c : Char) :
    (utf8Bytes (List.replicate n c)).length = n * (utf8EncodeChar c).length := by
  induction n with
  | zero => simp [utf8Bytes]
  | succ n ih =>
    simp only [utf8Bytes, List.replicate_succ, List.flatMap_cons, List.length_append] at ih ⊢
    rw [ih]
    ring

/-- C16, as stated, fails: for a null name `DemangleMarkup`, and with it
`MarkupSymbolizer::Demangle` and `Symbolizer::Demangle`, returns its buffer
holding wrapped markup text, not a null or empty indication; for a present
name of 1100 one-byte characters the buffer holds 1023 bytes, not the 1113
bytes of the wrapper text for that name; and so it does for a name of 600
two-byte characters, whose wrapper text has 613 characters but 1213 bytes. -/
theorem DemangleMarkup_null_name_counterexample :
    DemangleMarkup MarkupConstants.markup Platform.lp64 none =
      some (utf8Bytes "\x7b\x7b\x7bsymbol:<null>\x7d\x7d\x7d".data) ∧
    MarkupSymbolizer.Demangle MarkupConstants.markup Platform.lp64 none =
      some (utf8Bytes "\x7b\x7b\x7bsymbol:<null>\x7d\x7d\x7d".data) ∧
    Symbolizer.Demangle MarkupConstants.markup Platform.lp64 none =
      some (utf8Bytes "\x7b\x7b\x7bsymbol:<null>\x7d\x7d\x7d".data) ∧
    DemangleMarkup MarkupConstants.markup Platform.lp64 none ≠ none ∧
    DemangleMarkup MarkupConstants.markup Platform.lp64 none ≠ some [] ∧
    (DemangleMarkup MarkupConstants.markup Platform.lp64 (some longName)).map List.length =
      some 1023 ∧
    (utf8Bytes ("\x7b\x7b\x7bsymbol:".data ++ longName.data ++ "\x7d\x7d\x7d".data)).length =
      1113 ∧
    (DemangleMarkup MarkupConstants.markup Platform.lp64 (some accentedName)).map List.length =
      some 1023 ∧
    ("\x7b\x7b\x7bsymbol:".data ++ accentedName.data ++ "\x7d\x7d\x7d".data).length = 613 ∧
    (utf8Bytes ("\x7b\x7b\x7bsymbol:".data ++ accentedName.data ++ "\x7d\x7d\x7d".data)).length =
      1213 := by
  have hlong : longName.data = List.replicate 1100 'a' := rfl
  have haccented : accentedName.data = List.replicate 600 'é' := rfl
  have hlen₁ : (utf8Bytes ("\x7b\x7b\x7bsymbol:".data ++ longName.data
      ++ "\x7d\x7d\x7d".data)).length = 1113 := by
    rw [utf8Bytes_append, utf8Bytes_append, hlong, List.length_append, List.length_append,
      utf8Bytes_replicate_length]
    rfl
  have hlen₂ : (utf8Bytes ("\x7b\x7b\x7bsymbol:".data ++ accentedName.data
      ++ "\x7d\x7d\x7d".data)).length = 1213 := by
    rw [utf8Bytes_append, utf8Bytes_append, haccented, List.length_append, List.length_append,
      utf8Bytes_replicate_length]
    rfl
  refine ⟨by decide, by decide, by decide, by decide, by decide, ?_, hlen₁, ?_, ?_, hlen₂⟩
  · simp only [DemangleMarkup, internal_snprintf, Option.map_some', Option.getD_some,
      text_demangle, List.length_take, hlen₁]
    rfl
  · simp only [DemangleMarkup, internal_snprintf, Option.map_some', Option.getD_some,
      text_demangle, List.length_take, hlen₂]
    rfl
  · simp only [List.length_append, haccented, List.length_replicate]
    rfl

/-- C16, amended (demangle). For every name, null or present,
`DemangleMarkup` returns its static buffer, never null, and
`MarkupSymbolizer::Demangle` and `Symbolizer::Demangle` return the same. The
buffer holds at most `kFormatDemangleMax - 1` bytes, the first bytes of what
`kFormatDemangle` and the name format to: for a present name whose
demangle-wrapper text takes fewer than `kFormatDemangleMax` bytes, all the
bytes of that text; for a null name, the bytes that fit of the wrapper text
around the formatter's rendering of a null string. With the markup constants
the wrapper text of a name takes 13 bytes more than the name. -/
theorem DemangleMarkup_returns_buffer (K : MarkupConstants) (P : Platform)
    (name : Option String) :
    DemangleMarkup K P name ≠ none ∧
    MarkupSymbolizer.Demangle K P name = DemangleMarkup K P name ∧
    Symbolizer.Demangle K P name = DemangleMarkup K P name ∧
    (∀ buffer, DemangleMarkup K P name = some buffer →
      buffer.length ≤ K.kFormatDemangleMax - 1 ∧
      buffer <+: utf8Bytes (VSNPrintf P K.kFormatDemangle.data
        [Arg.str (name.getD kNullString)])) ∧
    DemangleMarkup K P none =
      some (internal_snprintf P K.kFormatDemangleMax K.kFormatDemangle
        [Arg.str kNullString]) ∧
    (∀ s : String,
      (utf8Bytes (VSNPrintf P K.kFormatDemangle.data [Arg.str s])).length <
        K.kFormatDemangleMax →
      DemangleMarkup K P (some s) =
        some (utf8Bytes (VSNPrintf P K.kFormatDemangle.data [Arg.str s]))) ∧
    (∀ s : String,
      VSNPrintf P MarkupConstants.markup.kFormatDemangle.data [Arg.str s] =
        "\x7b\x7b\x7bsymbol:".data ++ s.data ++ "\x7d\x7d\x7d".data) ∧
    (∀ s : String,
      (utf8Bytes (VSNPrintf P MarkupConstants.markup.kFormatDemangle.data [Arg.str s])).length =
        s.utf8ByteSize + 13) := by
  refine ⟨by simp [DemangleMarkup], rfl, rfl, ?_, rfl, ?_, text_demangle P, ?_⟩
  · intro buffer h
    simp only [DemangleMarkup, internal_snprintf, Option.some.injEq] at h
    rw [← h]
    exact ⟨by simp only [List.length_take]; exact min_le_left _ _, List.take_prefix _ _⟩
  · intro s hfit
    have htake : (utf8Bytes (VSNPrintf P K.kFormatDemangle.data [Arg.str s])).take
        (K.kFormatDemangleMax - 1) = utf8Bytes (VSNPrintf P K.kFormatDemangle.data [Arg.str s]) :=
      List.take_of_length_le (by omega)
    simp [DemangleMarkup, internal_snprintf, htake]
  · intro s
    have h₁ : (utf8Bytes "\x7b\x7b\x7bsymbol:".data).length = 10 := by decide
    have h₂ : (utf8Bytes "\x7d\x7d\x7d".data).length = 3 := by decide
    rw [text_demangle, utf8Bytes_append, utf8Bytes_append, List.length_append,
      List.length_append, h₁, h₂, utf8Bytes_length]
    omega

/-- A concrete instance of the amended C16: a mangled name that fits the
buffer, a name with two-byte characters that fits, and the null name. -/
theorem DemangleMarkup_returns_buffer_witness :
    (utf8Bytes (VSNPrintf Platform.lp64 MarkupConstants.markup.kFormatDemangle.data
      [Arg.str "_ZN3fooEv"])).length < MarkupConstants.markup.kFormatDemangleMax ∧
    DemangleMarkup MarkupConstants.markup Platform.lp64 (some "_ZN3fooEv") =
      some (utf8Bytes (VSNPrintf Platform.lp64 MarkupConstants.markup.kFormatDemangle.data
        [Arg.str "_ZN3fooEv"])) ∧
    DemangleMarkup MarkupConstants.markup Platform.lp64 (some "_ZN3fooEv") =
      some (utf8Bytes "\x7b\x7b\x7bsymbol:_ZN3fooEv\x7d\x7d\x7d".data) ∧
    DemangleMarkup MarkupConstants.markup Platform.lp64 (some "é") =
      some [0x7b, 0x7b, 0x7b, 0x73, 0x79, 0x6d, 0x62, 0x6f, 0x6c, 0x3a, 0xc3, 0xa9,
        0x7d, 0x7d, 0x7d] ∧
    DemangleMarkup MarkupConstants.markup Platform.lp64 none =
      some (utf8Bytes "\x7b\x7b\x7bsymbol:<null>\x7d\x7d\x7d".data) :=
  ⟨by decide,
    (DemangleMarkup_returns_buffer MarkupConstants.markup Platform.lp64
      (some "_ZN3fooEv")).2.2.2.2.2.1 "_ZN3fooEv" (by decide),
    by decide, by decide, by decide⟩

/-- C17 (data symbolization always succeeds with only `start` set). For every
address and every prior content of the `DataInfo`, `SymbolizeDataMarkup`
returns true and leaves the `DataInfo` with `start = addr` and every other
field null or zero, which is a cleared `DataInfo` with `start` set, whatever
was cleared; `MarkupSymbolizer::SymbolizeData` does the same; and
`SymbolizePCMarkup` returns true for every address and every entry. -/
theorem SymbolizeDataMarkup_only_start (K : MarkupConstants) (P : Platform) (addr : Nat)
    (info : DataInfo) (stack : SymbolizedStack) :
    SymbolizeDataMarkup addr info =
      (true, { module := none, module_offset := 0, file := none, line := 0, name := none,
               start := addr, size := 0 }) ∧
    (∀ other : DataInfo,
      (SymbolizeDataMarkup addr info).2 = { other.Clear with start := addr }) ∧
    MarkupSymbolizer.SymbolizeData addr info = SymbolizeDataMarkup addr info ∧
    (SymbolizePCMarkup K P addr stack).1 = true ∧
    (MarkupSymbolizer.SymbolizePC K P addr stack).1 = true :=
  ⟨rfl, fun _ => rfl, rfl, rfl, rfl⟩

/-- C18 (facade equivalence). For every input the tool layer
(`MarkupSymbolizer`, `MarkupStackTracePrinter`) and the platform layer
(`Symbolizer`, `FuchsiaStackTracePrinter`) give the same result: both
`SymbolizePC` succeed and leave the same entry when the tool is handed a fresh
entry for the address, and the same function text whatever entry it is
handed; `SymbolizeData` and `Demangle` agree; `RenderFrame` of the tool layer
passes its `CHECK` and appends what the platform layer appends, the frame
declaration of `frame_no` and `address`, whatever the format string, the
address info, the style flag and the strip prefix on either side;
`RenderData` of both layers appends the data declaration of `DI->start`,
whatever the format string and the strip prefix. -/
theorem facade_layers_agree (K : MarkupConstants) (P : Platform) (addr : Nat)
    (stack : SymbolizedStack) (info : DataInfo) (name : Option String)
    (buffer : InternalScopedString) (format₁ format₂ : String) (frame_no address : Nat)
    (info₁ info₂ : AddressInfo) (vs_style₁ vs_style₂ : Bool) (strip₁ strip₂ : String)
    (DI : DataInfo) :
    (Symbolizer.SymbolizePC K P addr =
        some (MarkupSymbolizer.SymbolizePC K P addr (SymbolizedStack.New addr)).2 ∧
      (MarkupSymbolizer.SymbolizePC K P addr stack).1 = true ∧
      (Symbolizer.SymbolizePC K P addr).bind (fun s => s.info.function) =
        (MarkupSymbolizer.SymbolizePC K P addr stack).2.info.function) ∧
    MarkupSymbolizer.SymbolizeData addr info = Symbolizer.SymbolizeData addr info ∧
    MarkupSymbolizer.Demangle K P name = Symbolizer.Demangle K P name ∧
    (MarkupStackTracePrinter.RenderFrame K buffer format₁ frame_no address info₁ vs_style₁
        strip₁ =
        some (FuchsiaStackTracePrinter.RenderFrame K buffer format₂ frame_no address info₂
          vs_style₂ strip₂) ∧
      FuchsiaStackTracePrinter.RenderFrame K buffer format₂ frame_no address info₂ vs_style₂
        strip₂ = buffer ++ [Piece.AppendF K.kFormatFrame [Arg.num frame_no, Arg.num address]]) ∧
    (MarkupStackTracePrinter.RenderData K buffer format₁ DI strip₁ =
        FuchsiaStackTracePrinter.RenderData K buffer format₂ DI strip₂ ∧
      FuchsiaStackTracePrinter.RenderData K buffer format₂ DI strip₂ =
        buffer ++ [Piece.AppendF K.kFormatData [Arg.num DI.start]]) ∧
    (MarkupStackTracePrinter.StripFunctionName name =
        FuchsiaStackTracePrinter.StripFunctionName name ∧
      MarkupStackTracePrinter.RenderNeedsSymbolization format₁ =
        FuchsiaStackTracePrinter.RenderNeedsSymbolization format₂) :=
  ⟨⟨rfl, rfl, rfl⟩, rfl, rfl, ⟨rfl, rfl⟩, ⟨rfl, rfl⟩, ⟨rfl, rfl⟩⟩

/-- A concrete instance of C18: address 0x400010, frame 3, and two unrelated
format strings, style flags and strip prefixes. -/
theorem facade_layers_agree_witness :
    Symbolizer.SymbolizePC MarkupConstants.markup Platform.lp64 0x400010 =
      some (MarkupSymbolizer.SymbolizePC MarkupConstants.markup Platform.lp64 0x400010
        (SymbolizedStack.New 0x400010)).2 ∧
    (Symbolizer.SymbolizePC MarkupConstants.markup Platform.lp64 0x400010).bind
      (fun s => s.info.function) =
      some (utf8Bytes "\x7b\x7b\x7bpc:0x000000400010\x7d\x7d\x7d".data) ∧
    MarkupStackTracePrinter.RenderFrame MarkupConstants.markup [] "%L %F" 3 0x400010
      (SymbolizedStack.New 0x400010).info true "/src/" =
      some (FuchsiaStackTracePrinter.RenderFrame MarkupConstants.markup [] "DEFAULT" 3 0x400010
        (SymbolizedStack.New 0).info false "") ∧
    (MarkupStackTracePrinter.RenderFrame MarkupConstants.markup [] "%L %F" 3 0x400010
      (SymbolizedStack.New 0x400010).info true "/src/").map
      (fun b => String.mk (InternalScopedString.text Platform.lp64 b)) =
      some "\x7b\x7b\x7bbt:3:0x000000400010\x7d\x7d\x7d" :=
  ⟨(facade_layers_agree MarkupConstants.markup Platform.lp64 0x400010
      (SymbolizedStack.New 0x400010) staleDataInfo none [] "%L %F" "DEFAULT" 3 0x400010
      (SymbolizedStack.New 0x400010).info (SymbolizedStack.New 0).info true false "/src/" ""
      staleDataInfo).1.1,
    by decide,
    (facade_layers_agree MarkupConstants.markup Platform.lp64 0x400010
      (SymbolizedStack.New 0x400010) staleDataInfo none [] "%L %F" "DEFAULT" 3 0x400010
      (SymbolizedStack.New 0x400010).info (SymbolizedStack.New 0).info true false "/src/" ""
      staleDataInfo).2.2.2.1.1,
    by decide⟩

theorem ModuleHasBeenRendered_of_mem (module : LoadedModule) (r : RenderedModule)
    (rs : List RenderedModule) (hmem : r ∈ rs) (heq : ModulesEq module r = true) :
    ModuleHasBeenRendered module rs = true := by
  induction rs with
  | nil => simp at hmem
  | cons r' rs ih =>
    rcases List.mem_cons.mp hmem with rfl | hmem
    · simp [ModuleHasBeenRendered, heq]
    · by_cases h : ModulesEq module r' = true
      · simp [ModuleHasBeenRendered, h]
      · simp [ModuleHasBeenRendered, h, ih hmem]

/-- The loop keeps the registry free of repeated records. -/
theorem renderLoop_nodup (P : Platform) (modules : List LoadedModule) :
    ∀ (rs : List RenderedModule) (buffer : InternalScopedString)
      (rs' : List RenderedModule) (buffer' : InternalScopedString),
      rs.Nodup → renderLoop P rs buffer modules = some (rs', buffer') → rs'.Nodup := by
  induction modules with
  | nil =>
    intro rs buffer rs' buffer' hnd h
    simp only [renderLoop, Option.some.injEq, Prod.mk.injEq] at h
    rw [← h.1]
    exact hnd
  | cons module modules ih =>
    intro rs buffer rs' buffer' hnd h
    cases hm : ModuleHasBeenRendered module rs with
    | true =>
      rw [renderLoop_cons_rendered P rs buffer module _ hm] at h
      exact ih rs buffer rs' buffer' hnd h
    | false =>
      cases hr : recordModule P module with
      | none =>
        rw [renderLoop_cons_new_none P rs buffer module _ hm hr] at h
        cases h
      | some r =>
        rw [renderLoop_cons_new P rs buffer module _ r hm hr] at h
        have hnot : r ∉ rs := by
          intro hmem
          have := ModuleHasBeenRendered_of_mem module r rs hmem
            (ModulesEq_recordModule P module r hr)
          rw [hm] at this
          cases this
        have hnd' : (rs ++ [r]).Nodup := by
          rw [List.nodup_append]
          refine ⟨hnd, List.nodup_singleton r, ?_⟩
          intro a ha hb
          rw [List.mem_singleton] at hb
          exact hnot (hb ▸ ha)
        exact ih _ _ rs' buffer' hnd' h

theorem RenderModules_nodup (P : Platform) (statics statics' : RenderModulesStatics)
    (buffer buffer' : InternalScopedString) (modules : List LoadedModule)
    (hnd : (initializedVector statics).Nodup)
    (h : RenderModules P statics buffer modules = some (statics', buffer')) :
    (initializedVector statics').Nodup := by
  rw [RenderModules_eq] at h
  cases hl : renderLoop P (initializedVector statics)
      (buffer ++ (if (initializedVector statics).length = 0
        then [Piece.Append kResetMarker] else [])) modules with
  | none => rw [hl] at h; cases h
  | some x =>
    rw [hl] at h
    obtain ⟨rs', b'⟩ := x
    have hp := renderLoop_nodup P modules _ _ rs' b' hnd hl
    simp only [Option.map_some', Option.some.injEq, Prod.mk.injEq] at h
    rw [← h.1]
    exact hp

theorem RenderModulesSeq_nodup (P : Platform) (calls : List (List LoadedModule)) :
    ∀ (statics statics' : RenderModulesStatics) (buffer buffer' : InternalScopedString),
      (initializedVector statics).Nodup →
      RenderModulesSeq P statics buffer calls = some (statics', buffer') →
      (initializedVector statics').Nodup := by
  induction calls with
  | nil =>
    intro statics statics' buffer buffer' hnd h
    simp only [RenderModulesSeq, Option.some.injEq, Prod.mk.injEq] at h
    rw [← h.1]
    exact hnd
  | cons modules calls ih =>
    intro statics statics' buffer buffer' hnd h
    cases h1 : RenderModules P statics buffer modules with
    | none => simp [RenderModulesSeq, h1] at h
    | some x =>
      obtain ⟨statics₁, buffer₁⟩ := x
      simp only [RenderModulesSeq, h1] at h
      exact ih statics₁ statics' buffer₁ buffer'
        (RenderModules_nodup P statics statics₁ buffer buffer₁ modules hnd h1) h

/-- C20 (the registry has no duplicate records). Starting from the statics of
process start, every finite run of `RenderModules` calls on module lists whose
build ids fit the record completes, and afterwards no two registry records
have the same base address, the same full name and the same stored build id.
And for each call of the run, from whatever state, the number of module
declarations the call emits equals the growth of the registry during the
call. -/
theorem RenderModulesSeq_no_duplicate_records (P : Platform)
    (calls : List (List LoadedModule))
    (hwf : ∀ modules ∈ calls, ∀ module ∈ modules, module.uuid_size ≤ P.kModuleUUIDSize) :
    (∃ (statics' : RenderModulesStatics) (out : InternalScopedString),
      (∀ buffer, RenderModulesSeq P RenderModulesStatics.initial buffer calls =
        some (statics', buffer ++ out)) ∧
      statics'.renderedModules.Pairwise (fun r r' =>
        ¬ (r.base_address = r'.base_address ∧ r.full_name = r'.full_name ∧
          r.uuid = r'.uuid))) ∧
    (∀ (statics : RenderModulesStatics), ∀ modules ∈ calls,
      ∃ (statics' : RenderModulesStatics) (out : InternalScopedString),
        (∀ buffer, RenderModules P statics buffer modules = some (statics', buffer ++ out)) ∧
        (moduleIds out).length + (initializedVector statics).length =
          statics'.renderedModules.length) := by
  constructor
  · obtain ⟨statics', out, hrun, _, _⟩ :=
      RenderModulesSeq_spec P calls RenderModulesStatics.initial hwf
    refine ⟨statics', out, hrun, ?_⟩
    have hv : statics'.Valid :=
      (RenderModulesSeq_grows P calls RenderModulesStatics.initial statics' [] ([] ++ out)
        (fun _ => rfl) (hrun [])).2
    have hnd := RenderModulesSeq_nodup P calls RenderModulesStatics.initial statics' []
      ([] ++ out) (by simp [initializedVector, RenderModulesStatics.initial]) (hrun [])
    rw [initializedVector_of_valid statics' hv] at hnd
    refine List.Pairwise.imp ?_ hnd
    intro r r' hne hsame
    apply hne
    cases r
    cases r'
    simp only at hsame
    simp [hsame.1, hsame.2.1, hsame.2.2]
  · intro statics modules hm
    obtain ⟨news, out, hrun, _, hids, _, _, _⟩ :=
      RenderModules_spec P statics modules (hwf modules hm)
    refine ⟨_, (if (initializedVector statics).length = 0 then [Piece.Append kResetMarker]
      else []) ++ out, hrun, ?_⟩
    have hreset : moduleIds (if (initializedVector statics).length = 0
        then [Piece.Append kResetMarker] else []) = [] := by
      split <;> simp [moduleIds, Piece.moduleId]
    rw [moduleIds_append, hreset, hids]
    simp [List.length_range']
    omega

/-- A concrete instance of C20: module A twice in one list, then A with a
shorter build id, B, and A loaded at another base. -/
theorem RenderModulesSeq_no_duplicate_records_witness :
    (∀ modules ∈ [[moduleA, moduleA], [moduleAShortUuid, moduleB], [moduleAReloaded, moduleA]],
      ∀ module ∈ modules, module.uuid_size ≤ Platform.lp64.kModuleUUIDSize) ∧
    (∃ (statics' : RenderModulesStatics) (out : InternalScopedString),
      (∀ buffer, RenderModulesSeq Platform.lp64 RenderModulesStatics.initial buffer
        [[moduleA, moduleA], [moduleAShortUuid, moduleB], [moduleAReloaded, moduleA]] =
        some (statics', buffer ++ out)) ∧
      statics'.renderedModules.Pairwise (fun r r' =>
        ¬ (r.base_address = r'.base_address ∧ r.full_name = r'.full_name ∧
          r.uuid = r'.uuid))) ∧
    (RenderModulesSeq Platform.lp64 RenderModulesStatics.initial []
      [[moduleA, moduleA], [moduleAShortUuid, moduleB], [moduleAReloaded, moduleA]]).map
      (fun x => (x.1.renderedModules.map (fun r => r.base_address), moduleIds x.2)) =
      some ([0x1000, 0x5000, 0x9000], [0, 1, 2]) :=
  ⟨by decide,
    (RenderModulesSeq_no_duplicate_records Platform.lp64
      [[moduleA, moduleA], [moduleAShortUuid, moduleB], [moduleAReloaded, moduleA]]
      (by decide)).1,
    by decide⟩

end __sanitizer
